import Mathlib

/-!
golek: circuit breaker, plugin registry, RBAC and audit logger

A shallow embedding of `pkg/enterprise/circuit_breaker.go`,
`pkg/plugins/registry.go` and `pkg/enterprise/security.go`, followed by the
properties proved about them.

Conventions of the embedding

* A Go `error` is `Option GoError`: `none` is `nil`.
* A call into code the package does not own (the guarded function of a
  breaker, the lifecycle methods of a plugin) is a function
  `W → Option GoError × W` over an arbitrary world `W`: it may change
  anything outside the component and then returns its error.  Running such a
  function exactly once is visible in the resulting world.
* Instants and durations are integers (nanoseconds); `time.Since t` read at
  instant `now` is `now - t`.
* Go maps are functions `String → Option α` (`none`: key absent).
-/

namespace Golek

/-! ## Errors -/

/-- Error values built by `fmt.Errorf`: a plain formatted message, or a
message wrapping a cause through the `%w` verb. -/
inductive GoError where
  | errorf (msg : String)
  | wrap (pre : String) (cause : GoError)
deriving DecidableEq, Repr

/-- The text `err.Error()` of an error: a wrapping error prints its prefix
followed by the text of its cause. -/
def GoError.Error : GoError → String
  | .errorf msg => msg
  | .wrap pre cause => pre ++ cause.Error

/-- The cause `errors.Unwrap` gives back. -/
def GoError.Unwrap : GoError → Option GoError
  | .errorf _ => none
  | .wrap _ cause => some cause

/-- An effectful call into foreign code returning an `error`. -/
abbrev Effect (W : Type) := W → Option GoError × W

/-- Instrumentation of an effect with an invocation counter: every run of
`counted fn` runs `fn` once and adds one to the counter. -/
def counted {W : Type} (fn : Effect W) : Effect (W × Nat) :=
  fun s => ((fn s.1).1, ((fn s.1).2, s.2 + 1))

/-! ## Circuit breaker (`circuit_breaker.go`) -/

/-- The three values of `CircuitState`. -/
inductive CircuitState where
  | StateClosed
  | StateOpen
  | StateHalfOpen
deriving DecidableEq, Repr

open CircuitState

/-- The fields of `CircuitBreaker` (the mutex apart).  `failures` is a Go
`int` that only ever grows by one per failed call, so it is an unbounded
integer here. -/
structure CircuitBreaker where
  name : String
  maxFailures : Int
  resetTimeout : Int
  state : CircuitState
  failures : Int
  lastFailureTime : Int
deriving DecidableEq, Repr

/-- A breaker as the struct literal of `GetBreaker` builds it: the given
name and thresholds, state Closed, the other fields at their zero value. -/
def freshBreaker (name : String) (maxFailures resetTimeout : Int) : CircuitBreaker :=
  { name := name, maxFailures := maxFailures, resetTimeout := resetTimeout,
    state := StateClosed, failures := 0, lastFailureTime := 0 }

/-- The breaker `GetBreaker` creates for a name it has not seen:
`maxFailures` 5 and `resetTimeout` 60 seconds. -/
def defaultBreaker (name : String) : CircuitBreaker :=
  freshBreaker name 5 (60 * 1000000000)

/-- The method `CircuitBreaker.Call` in a sequential run.  `now` is the clock
read by `time.Since` in the Open check, `later` the clock read by `time.Now`
when a failure is recorded.  The result is the returned error, the breaker
afterwards and the world afterwards. -/
def Call {W : Type} (cb : CircuitBreaker) (now : Int) (fn : Effect W) (later : Int)
    (w : W) : Option GoError × CircuitBreaker × W :=
  -- Check if circuit is open
  let gate : Option CircuitBreaker :=
    if cb.state = StateOpen then
      if now - cb.lastFailureTime > cb.resetTimeout then
        some { cb with state := StateHalfOpen }
      else
        none
    else
      some cb
  match gate with
  | none => (some (GoError.errorf ("circuit breaker open for " ++ cb.name)), cb, w)
  | some cb1 =>
    -- Execute function
    match fn w with
    | (some err, w1) =>
      let cb2 := { cb1 with failures := cb1.failures + 1, lastFailureTime := later }
      let cb3 := if cb2.failures ≥ cb2.maxFailures then { cb2 with state := StateOpen } else cb2
      (some err, cb3, w1)
    | (none, w1) =>
      -- Success - reset
      let cb2 := if cb1.state = StateHalfOpen then { cb1 with state := StateClosed } else cb1
      (none, { cb2 with failures := 0 }, w1)

/-- One guarded call of a run: the clock at the Open check, what the guarded
function returns, and the clock when its failure is recorded. -/
structure CallEvent where
  now : Int
  result : Option GoError
  later : Int
deriving DecidableEq, Repr

/-- Whether the guarded function of the event fails. -/
def CallEvent.failed (ev : CallEvent) : Bool := ev.result.isSome

/-- The breaker after one call whose guarded function behaves as the event
says. -/
def callStep (cb : CircuitBreaker) (ev : CallEvent) : CircuitBreaker :=
  (Call cb ev.now (fun (u : Unit) => (ev.result, u)) ev.later ()).2.1

/-- The breaker after a sequence of calls, one after the other. -/
def runCalls (cb : CircuitBreaker) (evs : List CallEvent) : CircuitBreaker :=
  evs.foldl callStep cb

/-- Length of the run of failures that ends a sequence of outcomes: it grows
by one on a failure and is 0 after a success. -/
def trailingFailures (evs : List CallEvent) : Nat :=
  evs.foldl (fun k ev => if ev.failed then k + 1 else 0) 0

/-- Some `n` consecutive outcomes of the sequence are all failures. -/
def hasFailureRun (n : Nat) (evs : List CallEvent) : Prop :=
  List.replicate n true <:+: evs.map CallEvent.failed

instance (n : Nat) (evs : List CallEvent) : Decidable (hasFailureRun n evs) := by
  unfold hasFailureRun; infer_instance

/-! ## Structured logging (zap) -/

/-- A field of a zap log entry, as built by `zap.String`, `zap.Error`,
`zap.Time` and `zap.Int`. -/
inductive Field where
  | String (key val : String)
  | Error (err : GoError)
  | Time (key : String) (t : Int)
  | Count (key : String) (n : Nat)
deriving DecidableEq, Repr

/-- One entry written through a `*zap.Logger`. -/
structure LogEntry where
  level : String
  msg : String
  fields : List Field
deriving DecidableEq, Repr

/-! ## Go maps -/

/-- The Go statement `m[k] = v`. -/
def mapSet {α : Type} (m : String → Option α) (k : String) (v : α) : String → Option α :=
  fun k' => if k' = k then some v else m k'

/-- The Go statement `delete(m, k)`. -/
def mapDelete {α : Type} (m : String → Option α) (k : String) : String → Option α :=
  fun k' => if k' = k then none else m k'

/-- The Go expression `m[k]` on a `map[string]bool`: absent keys read as
`false`. -/
def mapBool (m : String → Option Bool) (k : String) : Bool :=
  (m k).getD false

/-! ## Plugin registry (`registry.go`) -/

/-- The `context.Context` handed to lifecycle methods. -/
structure Context where
  id : Nat
deriving DecidableEq, Repr

/-- The value of `context.Background()`. -/
def Context.Background : Context := ⟨0⟩

/-- Modelled from the spec: the plugin capability contract `core.Plugin`
(package `core` is not among the sources): `Name`, `Version`, `Type`,
`Initialize(config)`, `Start(ctx)`, `Stop(ctx)`, `HealthCheck(ctx)`,
`DefaultConfig()` and `ValidateConfig(config)`.  The identity getters are
values; the methods returning an `error` are effects on a world `W`; `Cfg`
stands for the configuration mapping `map[string]any`. -/
structure Plugin (Cfg W : Type) where
  Name : String
  Version : String
  PluginType : String
  Initialize : Cfg → Effect W
  Start : Context → Effect W
  Stop : Context → Effect W
  HealthCheck : Context → Effect W
  DefaultConfig : Cfg
  ValidateConfig : Cfg → Effect W

/-- The fields of `DefaultPluginRegistry` (the mutex apart); `logger` holds
the entries written through the registry's logger so far. -/
structure DefaultPluginRegistry (Cfg W : Type) where
  plugins : String → Option (Plugin Cfg W)
  enabledPlugins : String → Option Bool
  logger : List LogEntry

/-- The constructor `NewPluginRegistry`: two empty maps. -/
def NewPluginRegistry {Cfg W : Type} : DefaultPluginRegistry Cfg W :=
  { plugins := fun _ => none, enabledPlugins := fun _ => none, logger := [] }

/-- The method `Register`. -/
def Register {Cfg W : Type} (r : DefaultPluginRegistry Cfg W) (plugin : Plugin Cfg W) (w : W) :
    Option GoError × DefaultPluginRegistry Cfg W × W :=
  let name := plugin.Name
  match r.plugins name with
  | some _ => (some (GoError.errorf ("plugin already registered: " ++ name)), r, w)
  | none =>
    -- Validate configuration
    match plugin.ValidateConfig plugin.DefaultConfig w with
    | (some err, w1) =>
      (some (GoError.wrap ("invalid default config for plugin " ++ name ++ ": ") err), r, w1)
    | (none, w1) =>
      (none,
       { plugins := mapSet r.plugins name plugin,
         enabledPlugins := mapSet r.enabledPlugins name false,
         logger := r.logger ++ [⟨"info", "Plugin registered",
           [Field.String "name" name, Field.String "version" plugin.Version,
            Field.String "type" plugin.PluginType]⟩] },
       w1)

/-- The method `Unregister`. -/
def Unregister {Cfg W : Type} (r : DefaultPluginRegistry Cfg W) (name : String) (w : W) :
    Option GoError × DefaultPluginRegistry Cfg W × W :=
  match r.plugins name with
  | none => (some (GoError.errorf ("plugin not found: " ++ name)), r, w)
  | some plugin =>
    -- Stop plugin if enabled
    let stopped : List LogEntry × W :=
      if mapBool r.enabledPlugins name then
        match plugin.Stop Context.Background w with
        | (some err, w1) =>
          ([⟨"error", "Failed to stop plugin during unregister",
             [Field.String "plugin" name, Field.Error err]⟩], w1)
        | (none, w1) => ([], w1)
      else
        ([], w)
    (none,
     { plugins := mapDelete r.plugins name,
       enabledPlugins := mapDelete r.enabledPlugins name,
       logger := r.logger ++ stopped.1 ++
         [⟨"info", "Plugin unregistered", [Field.String "name" name]⟩] },
     stopped.2)

/-- The method `Get`: the plugin, or the error. -/
def Get {Cfg W : Type} (r : DefaultPluginRegistry Cfg W) (name : String) :
    Except GoError (Plugin Cfg W) :=
  match r.plugins name with
  | none => .error (GoError.errorf ("plugin not found: " ++ name))
  | some plugin => .ok plugin

/-- The method `EnablePlugin`. -/
def EnablePlugin {Cfg W : Type} (r : DefaultPluginRegistry Cfg W) (name : String) (w : W) :
    Option GoError × DefaultPluginRegistry Cfg W × W :=
  match r.plugins name with
  | none => (some (GoError.errorf ("plugin not found: " ++ name)), r, w)
  | some plugin =>
    if mapBool r.enabledPlugins name then
      (none, r, w) -- Already enabled
    else
      -- Initialize plugin
      match plugin.Initialize plugin.DefaultConfig w with
      | (some err, w1) =>
        (some (GoError.wrap ("failed to initialize plugin " ++ name ++ ": ") err), r, w1)
      | (none, w1) =>
        -- Start plugin
        match plugin.Start Context.Background w1 with
        | (some err, w2) =>
          (some (GoError.wrap ("failed to start plugin " ++ name ++ ": ") err), r, w2)
        | (none, w2) =>
          (none,
           { r with
             enabledPlugins := mapSet r.enabledPlugins name true,
             logger := r.logger ++ [⟨"info", "Plugin enabled", [Field.String "name" name]⟩] },
           w2)

/-- The method `DisablePlugin`. -/
def DisablePlugin {Cfg W : Type} (r : DefaultPluginRegistry Cfg W) (name : String) (w : W) :
    Option GoError × DefaultPluginRegistry Cfg W × W :=
  match r.plugins name with
  | none => (some (GoError.errorf ("plugin not found: " ++ name)), r, w)
  | some plugin =>
    if !mapBool r.enabledPlugins name then
      (none, r, w) -- Already disabled
    else
      -- Stop plugin
      match plugin.Stop Context.Background w with
      | (some err, w1) =>
        (some (GoError.wrap ("failed to stop plugin " ++ name ++ ": ") err), r, w1)
      | (none, w1) =>
        (none,
         { r with
           enabledPlugins := mapSet r.enabledPlugins name false,
           logger := r.logger ++ [⟨"info", "Plugin disabled", [Field.String "name" name]⟩] },
         w1)

/-- The method `IsEnabled`. -/
def IsEnabled {Cfg W : Type} (r : DefaultPluginRegistry Cfg W) (name : String) : Bool :=
  mapBool r.enabledPlugins name

/-- A lifecycle method of a plugin, for recording the order of calls. -/
inductive Lifecycle where
  | Validate
  | Initialize
  | Start
  | Stop
  | HealthCheck
deriving DecidableEq, Repr

/-- A plugin that records every lifecycle call in the world, a list of calls
in the order they were made, and answers each call as told: `validate`,
`init`, `start` and `stop` are the errors the four methods return. -/
def tracedPlugin (name : String) (validate init start stop : Option GoError) :
    Plugin Unit (List Lifecycle) :=
  { Name := name, Version := "1.0.0", PluginType := "security",
    Initialize := fun _ tr => (init, tr ++ [Lifecycle.Initialize]),
    Start := fun _ tr => (start, tr ++ [Lifecycle.Start]),
    Stop := fun _ tr => (stop, tr ++ [Lifecycle.Stop]),
    HealthCheck := fun _ tr => (none, tr),
    DefaultConfig := (),
    ValidateConfig := fun _ tr => (validate, tr ++ [Lifecycle.Validate]) }

/-! ## RBAC manager (`security.go`) -/

/-- The struct `Permission`. -/
structure Permission where
  Resource : String
  Actions : List String
deriving DecidableEq, Repr

/-- The struct `Policy`. -/
structure Policy where
  Roles : List String
  Permissions : List Permission
deriving DecidableEq, Repr

/-- The fields of `RBACManager` (the mutex apart): policies keyed by role
name. -/
structure RBACManager where
  policies : String → Option Policy

/-- The method `AddPolicy`. -/
def AddPolicy (r : RBACManager) (name : String) (policy : Policy) : RBACManager :=
  { policies := mapSet r.policies name policy }

/-- The constructor `NewRBACManager`: an empty policy map, then the three
default policies. -/
def NewRBACManager : RBACManager :=
  let manager : RBACManager := { policies := fun _ => none }
  -- Default policies
  let manager := AddPolicy manager "admin"
    { Roles := ["admin"], Permissions := [{ Resource := "*", Actions := ["*"] }] }
  let manager := AddPolicy manager "operator"
    { Roles := ["operator"],
      Permissions := [{ Resource := "workflow", Actions := ["read", "execute", "cancel"] },
                      { Resource := "definition", Actions := ["read"] }] }
  let manager := AddPolicy manager "viewer"
    { Roles := ["viewer"], Permissions := [{ Resource := "*", Actions := ["read"] }] }
  manager

/-- The method `LoadPolicies`, whose body is empty. -/
def LoadPolicies {Cfg : Type} (r : RBACManager) (_config : Cfg) : RBACManager := r

/-- The method `hasPermission`: the two nested loops return true at the first
permission whose resource matches and one of whose actions matches. -/
def hasPermission (policy : Policy) (resource action : String) : Bool :=
  policy.Permissions.any fun perm =>
    (perm.Resource == "*" || perm.Resource == resource) &&
      perm.Actions.any fun a => a == "*" || a == action

/-- The text of a `[]string` under the `%v` verb. -/
def fmtStrings (xs : List String) : String :=
  "[" ++ " ".intercalate xs ++ "]"

/-- The method `CheckPermission`: the loop over the roles returns nil at the
first role whose policy exists and grants the permission. -/
def CheckPermission (r : RBACManager) (roles : List String) (resource action : String) :
    Option GoError :=
  if roles.any (fun role =>
      match r.policies role with
      | some policy => hasPermission policy resource action
      | none => false)
  then none
  else some (GoError.errorf
    ("permission denied: " ++ action ++ " " ++ resource ++ " for roles " ++ fmtStrings roles))

/-! ## Audit logger (`security.go`) -/

/-- The struct `AuditEvent`; `Details` stands for its `map[string]interface{}`. -/
structure AuditEvent where
  Timestamp : Int
  TenantID : String
  UserID : String
  Action : String
  Resource : String
  ResourceID : String
  Result : String
  Details : List (String × String)
  IPAddress : String
deriving DecidableEq, Repr

/-- The method `Store` of the interface `AuditStorage`, on a storage whose
state has type `S`. -/
abbrev StoreFn (S : Type) := AuditEvent → S → Option GoError × S

/-- The method `InMemoryAuditStorage.Store`; the state is the slice `events`. -/
def InMemoryAuditStorage.Store : StoreFn (List AuditEvent) :=
  fun event events => (none, events ++ [event])

/-- The method `InMemoryAuditStorage.Query`. -/
def InMemoryAuditStorage.Query (events : List AuditEvent) (tenantID : String) (fromT toT : Int) :
    List AuditEvent × Option GoError :=
  (events.filter fun event =>
    event.TenantID == tenantID && decide (event.Timestamp > fromT) &&
      decide (event.Timestamp < toT), none)

/-- The fields of `AuditLogger` in a sequential run.  The channel `events` is
its buffer `events` (oldest first), its capacity `capacity` and whether it has
been closed; `storage` is the state of the storage and `Store` its method;
`workers` counts the `processEvents` goroutines that have been launched and
have not returned; `logger` holds the entries written so far. -/
structure AuditLogger (S : Type) where
  logger : List LogEntry
  events : List AuditEvent
  capacity : Nat
  closed : Bool
  storage : S
  Store : StoreFn S
  running : Bool
  workers : Nat

/-- The constructor `NewAuditLogger`: a channel of capacity 1000 and an empty
in-memory storage. -/
def NewAuditLogger : AuditLogger (List AuditEvent) :=
  { logger := [], events := [], capacity := 1000, closed := false,
    storage := [], Store := InMemoryAuditStorage.Store, running := false, workers := 0 }

/-- How a call on the logger ends in a sequential run: it returns, it blocks
for ever (nothing else runs that could unblock it), or it panics. -/
inductive Ending (α : Type) where
  | returns (a : α)
  | blocks
  | panics
deriving Repr

/-- The method `Start`. -/
def AuditLogger.Start {S : Type} (a : AuditLogger S) : AuditLogger S :=
  { a with running := true, workers := a.workers + 1 }

/-- The method `Stop`: closing a closed channel panics. -/
def AuditLogger.Stop {S : Type} (a : AuditLogger S) : Ending (AuditLogger S) :=
  if a.closed then Ending.panics
  else Ending.returns { a with running := false, closed := true }

/-- The method `Log`; `now` is the clock read by `time.Now`.  A send on a
closed channel panics, a send on a full buffer blocks. -/
def AuditLogger.Log {S : Type} (a : AuditLogger S) (event : AuditEvent) (now : Int) :
    Ending (AuditLogger S) :=
  if a.running then
    let event := { event with Timestamp := now }
    if a.closed then Ending.panics
    else if a.events.length < a.capacity then
      Ending.returns { a with events := a.events ++ [event] }
    else Ending.blocks
  else
    Ending.returns a

/-- The body of the loop of `processEvents` for one received event. -/
def AuditLogger.processEvent {S : Type} (a : AuditLogger S) (event : AuditEvent) :
    AuditLogger S :=
  let stored := a.Store event a.storage
  let failure : List LogEntry :=
    match stored.1 with
    | some err => [⟨"error", "Failed to store audit event", [Field.Error err]⟩]
    | none => []
  { a with
    storage := stored.2,
    logger := a.logger ++ failure ++
      -- Also log to structured logger
      [⟨"info", "Audit event",
        [Field.Time "timestamp" event.Timestamp, Field.String "tenant_id" event.TenantID,
         Field.String "user_id" event.UserID, Field.String "action" event.Action,
         Field.String "resource" event.Resource, Field.String "result" event.Result]⟩] }

/-- One round of the loop of a worker: it receives the oldest buffered event
and processes it; on an empty closed channel the loop ends and the worker
returns; on an empty open channel (or with no worker) nothing happens. -/
def AuditLogger.workerStep {S : Type} (a : AuditLogger S) : AuditLogger S :=
  if a.workers = 0 then a
  else
    match a.events with
    | event :: rest => AuditLogger.processEvent { a with events := rest } event
    | [] => if a.closed then { a with workers := a.workers - 1 } else a

/-- The method `processEvents` run by a live worker until it returns or
waits on an empty channel: every buffered event is received and processed,
oldest first, and the worker returns if the channel is closed. -/
def AuditLogger.processEvents {S : Type} (a : AuditLogger S) : AuditLogger S :=
  if a.workers = 0 then a
  else
    let drained := a.events.foldl AuditLogger.processEvent { a with events := [] }
    if drained.closed then { drained with workers := drained.workers - 1 } else drained

/-- A call of `Log`: the event handed in and the clock at that moment. -/
structure LogCall where
  event : AuditEvent
  now : Int
deriving DecidableEq, Repr

/-- The event a call of `Log` sends to the channel: the event handed in with
its `Timestamp` set by the logger. -/
def LogCall.stamped (c : LogCall) : AuditEvent :=
  { c.event with Timestamp := c.now }

/-- What the caller and the worker do between `Start` and `Stop`: the caller
logs an event, or the worker runs one round of its loop. -/
inductive AuditAction where
  | log (c : LogCall)
  | work
deriving DecidableEq, Repr

/-- One action on the logger. -/
def AuditLogger.perform {S : Type} (a : AuditLogger S) : AuditAction → Ending (AuditLogger S)
  | .log c => a.Log c.event c.now
  | .work => Ending.returns a.workerStep

/-- A sequence of actions, one after the other, up to the first that does not
return. -/
def AuditLogger.performAll {S : Type} (a : AuditLogger S) :
    List AuditAction → Ending (AuditLogger S)
  | [] => Ending.returns a
  | act :: rest =>
    match a.perform act with
    | .returns a1 => AuditLogger.performAll a1 rest
    | .blocks => Ending.blocks
    | .panics => Ending.panics

/-- The calls of `Log` among a sequence of actions, in order. -/
def loggedCalls : List AuditAction → List LogCall
  | [] => []
  | .log c :: rest => c :: loggedCalls rest
  | .work :: rest => loggedCalls rest

/-- The sequential run of the logger: `Log` calls `before`, then `Start`,
then the actions `during`, then `Stop`, then `Log` calls `after`, then the
worker runs until the queue is exhausted. -/
def auditRun {S : Type} (a : AuditLogger S) (before : List LogCall) (during : List AuditAction)
    (after : List LogCall) : Ending (AuditLogger S) :=
  match a.performAll (before.map AuditAction.log) with
  | .returns a1 =>
    match a1.Start.performAll during with
    | .returns a2 =>
      match a2.Stop with
      | .returns a3 =>
        match a3.performAll (after.map AuditAction.log) with
        | .returns a4 => Ending.returns a4.processEvents
        | .blocks => Ending.blocks
        | .panics => Ending.panics
      | .blocks => Ending.blocks
      | .panics => Ending.panics
    | .blocks => Ending.blocks
    | .panics => Ending.panics
  | .blocks => Ending.blocks
  | .panics => Ending.panics

/-- An audit event of tenant "acme" with the given action and a timestamp
chosen by the caller, for concrete runs. -/
def sampleEvent (action : String) (timestamp : Int) : AuditEvent :=
  { Timestamp := timestamp, TenantID := "acme", UserID := "alice", Action := action,
    Resource := "workflow", ResourceID := "wf-1", Result := "success", Details := [],
    IPAddress := "10.0.0.1" }

/-! ## Plugin registry: the loops over the plugin map -/

/-- The order in which one run of a Go `range` loop visits the keys of a map
is unspecified: `order` is such an order when it lists every key of the map
exactly once. -/
def Enumerates {α : Type} (m : String → Option α) (order : List String) : Prop :=
  order.Nodup ∧ ∀ k, k ∈ order ↔ (m k).isSome

/-- The body of the loops of `StartAll` and `StopAll` for the key `name`:
`method` is the lifecycle method the loop calls (`plugin.Start(ctx)` or
`plugin.Stop(ctx)`) and `msg` the message logged when it fails.  The
accumulator is the entries logged so far and the world.  A name that is not a
key of the map is not visited. -/
def eachEnabledBody {Cfg W : Type} (r : DefaultPluginRegistry Cfg W)
    (method : Plugin Cfg W → Effect W) (msg : String) (acc : List LogEntry × W)
    (name : String) : List LogEntry × W :=
  match r.plugins name with
  | none => acc
  | some plugin =>
    if mapBool r.enabledPlugins name then
      match method plugin acc.2 with
      | (some err, w1) =>
        (acc.1 ++ [⟨"error", msg, [Field.String "plugin" name, Field.Error err]⟩], w1)
        -- Continue with other plugins
      | (none, w1) => (acc.1, w1)
    else acc

/-- The method `StartAll`; `order` is the order in which the loop visits the
keys of `r.plugins`. -/
def StartAll {Cfg W : Type} (r : DefaultPluginRegistry Cfg W) (ctx : Context)
    (order : List String) (w : W) : Option GoError × DefaultPluginRegistry Cfg W × W :=
  let done := order.foldl
    (eachEnabledBody r (fun plugin => plugin.Start ctx) "Failed to start plugin") (r.logger, w)
  (none, { r with logger := done.1 }, done.2)

/-- The method `StopAll`; `order` is the order in which the loop visits the
keys of `r.plugins`. -/
def StopAll {Cfg W : Type} (r : DefaultPluginRegistry Cfg W) (ctx : Context)
    (order : List String) (w : W) : Option GoError × DefaultPluginRegistry Cfg W × W :=
  let done := order.foldl
    (eachEnabledBody r (fun plugin => plugin.Stop ctx) "Failed to stop plugin") (r.logger, w)
  (none, { r with logger := done.1 }, done.2)

/-- The body of the loop of `HealthCheckAll` for the key `name`; the
accumulator is the map `results` built so far and the world. -/
def healthCheckBody {Cfg W : Type} (r : DefaultPluginRegistry Cfg W) (ctx : Context)
    (acc : (String → Option (Option GoError)) × W) (name : String) :
    (String → Option (Option GoError)) × W :=
  match r.plugins name with
  | none => acc
  | some plugin =>
    if mapBool r.enabledPlugins name then
      (mapSet acc.1 name (plugin.HealthCheck ctx acc.2).1, (plugin.HealthCheck ctx acc.2).2)
    else acc

/-- The method `HealthCheckAll`; `order` is the order in which the loop
visits the keys of `r.plugins`.  The result is the map from plugin name to
the error of its health check (`some none` is a key holding nil), the
registry and the world. -/
def HealthCheckAll {Cfg W : Type} (r : DefaultPluginRegistry Cfg W) (ctx : Context)
    (order : List String) (w : W) :
    (String → Option (Option GoError)) × DefaultPluginRegistry Cfg W × W :=
  let done := order.foldl (healthCheckBody r ctx) (fun _ => none, w)
  (done.1, r, done.2)

/-- Instrumentation of a plugin stored under the key `key`: every call of a
method returning an error behaves as the call on the plugin and is recorded,
with the key, at the end of a list of calls carried next to the world. -/
def recordedPlugin {Cfg W : Type} (key : String) (p : Plugin Cfg W) :
    Plugin Cfg (W × List (String × Lifecycle)) :=
  { Name := p.Name, Version := p.Version, PluginType := p.PluginType,
    Initialize := fun cfg s =>
      ((p.Initialize cfg s.1).1, ((p.Initialize cfg s.1).2, s.2 ++ [(key, Lifecycle.Initialize)])),
    Start := fun ctx s =>
      ((p.Start ctx s.1).1, ((p.Start ctx s.1).2, s.2 ++ [(key, Lifecycle.Start)])),
    Stop := fun ctx s =>
      ((p.Stop ctx s.1).1, ((p.Stop ctx s.1).2, s.2 ++ [(key, Lifecycle.Stop)])),
    HealthCheck := fun ctx s =>
      ((p.HealthCheck ctx s.1).1, ((p.HealthCheck ctx s.1).2, s.2 ++ [(key, Lifecycle.HealthCheck)])),
    DefaultConfig := p.DefaultConfig,
    ValidateConfig := fun cfg s =>
      ((p.ValidateConfig cfg s.1).1,
       ((p.ValidateConfig cfg s.1).2, s.2 ++ [(key, Lifecycle.Validate)])) }

/-- Instrumentation of a registry: the same maps, every plugin recording its
calls under its key. -/
def recordedRegistry {Cfg W : Type} (r : DefaultPluginRegistry Cfg W) :
    DefaultPluginRegistry Cfg (W × List (String × Lifecycle)) :=
  { plugins := fun k => (r.plugins k).map (recordedPlugin k),
    enabledPlugins := r.enabledPlugins,
    logger := r.logger }

/-! ## Circuit breaker: the two critical sections of `Call` and the pool -/

/-- The first critical section of `Call`, from taking the lock to releasing
it before the guarded function runs: `none` when the call is rejected,
otherwise the breaker as the section leaves it. -/
def Call.admission (cb : CircuitBreaker) (now : Int) : Option CircuitBreaker :=
  if cb.state = StateOpen then
    if now - cb.lastFailureTime > cb.resetTimeout then
      some { cb with state := StateHalfOpen }
    else
      none
  else
    some cb

/-- The second critical section of `Call`, which records the error `err`
returned by the guarded function; `later` is the clock read by `time.Now`. -/
def Call.record (cb : CircuitBreaker) (err : Option GoError) (later : Int) : CircuitBreaker :=
  match err with
  | some _ =>
    let cb2 := { cb with failures := cb.failures + 1, lastFailureTime := later }
    if cb2.failures ≥ cb2.maxFailures then { cb2 with state := StateOpen } else cb2
  | none =>
    let cb2 := if cb.state = StateHalfOpen then { cb with state := StateClosed } else cb
    { cb2 with failures := 0 }

/-- A step of one of several callers of `Call` on the same breaker: the
caller runs its first critical section, or a caller that was admitted gets
the result of its guarded function and runs its second critical section. -/
inductive CallerStep where
  | enter (caller : Nat) (now : Int)
  | finish (caller : Nat) (result : Option GoError) (later : Int)
deriving DecidableEq, Repr

/-- A breaker shared by several callers: the breaker, the callers that were
admitted and are running their guarded function (their outcome is not
recorded yet), and the callers that were rejected. -/
structure SharedBreaker where
  cb : CircuitBreaker
  inFlight : List Nat
  rejected : List Nat
deriving DecidableEq, Repr

/-- One step of a caller on a shared breaker. -/
def SharedBreaker.step (s : SharedBreaker) : CallerStep → SharedBreaker
  | .enter caller now =>
    match Call.admission s.cb now with
    | none => { s with rejected := s.rejected ++ [caller] }
    | some cb1 => { s with cb := cb1, inFlight := s.inFlight ++ [caller] }
  | .finish caller result later =>
    if caller ∈ s.inFlight then
      { s with cb := Call.record s.cb result later, inFlight := s.inFlight.erase caller }
    else s

/-- An interleaving of the steps of several callers. -/
def SharedBreaker.run (s : SharedBreaker) (steps : List CallerStep) : SharedBreaker :=
  steps.foldl SharedBreaker.step s

/-- The last clock reading of a call on the breaker `cb`: the reading of the
Open check when the call is rejected or its guarded function succeeds, the
reading that stamps the failure when its guarded function fails. -/
def lastClock (cb : CircuitBreaker) (ev : CallEvent) : Int :=
  if cb.state = StateOpen ∧ ev.now - cb.lastFailureTime ≤ cb.resetTimeout then ev.now
  else if ev.failed then ev.later
  else ev.now

/-- The fields of `CircuitBreakerPlugin` (the embedded base plugin and the
mutex apart).  A `*CircuitBreaker` is an index into `heap`, the breakers
allocated so far, so that two breakers with equal fields are still two
instances; `breakers` maps a name to its pointer. -/
structure CircuitBreakerPlugin where
  breakers : String → Option Nat
  heap : List CircuitBreaker

/-- The read-locked section of `GetBreaker`: the lookup of the name. -/
def GetBreaker.lookup (p : CircuitBreakerPlugin) (name : String) : Option Nat :=
  p.breakers name

/-- The write-locked section of `GetBreaker`: a breaker with the default
thresholds is allocated and stored under the name. -/
def GetBreaker.create (p : CircuitBreakerPlugin) (name : String) : Nat × CircuitBreakerPlugin :=
  (p.heap.length,
   { breakers := mapSet p.breakers name p.heap.length,
     heap := p.heap ++ [defaultBreaker name] })

/-- The rest of `GetBreaker` once the lookup has returned `found`, run on the
pool as it is by then: the write-locked section if the name was not found. -/
def GetBreaker.afterLookup (found : Option Nat) (p : CircuitBreakerPlugin) (name : String) :
    Nat × CircuitBreakerPlugin :=
  match found with
  | some breaker => (breaker, p)
  | none => GetBreaker.create p name

/-- The method `GetBreaker` in sequential use: the returned pointer and the
pool afterwards. -/
def GetBreaker (p : CircuitBreakerPlugin) (name : String) : Nat × CircuitBreakerPlugin :=
  GetBreaker.afterLookup (GetBreaker.lookup p name) p name

/-- A guarded call through a pointer of the pool: the breaker at `ptr` makes
the call step `ev`. -/
def callAt (p : CircuitBreakerPlugin) (ptr : Nat) (ev : CallEvent) : CircuitBreakerPlugin :=
  { p with heap := p.heap.modify (fun cb => callStep cb ev) ptr }

/-! ## Audit logger: instrumentation -/

/-- Instrumentation of a storage: every call of `Store` behaves as the call
on the storage and is recorded at the end of a list of the events handed to
`Store`, carried next to the state of the storage. -/
def recordingStore {S : Type} (store : StoreFn S) : StoreFn (S × List AuditEvent) :=
  fun event s => ((store event s.1).1, ((store event s.1).2, s.2 ++ [event]))

/-- A logger whose storage records the events handed to `Store`. -/
def recordedLogger {S : Type} (a : AuditLogger S) : AuditLogger (S × List AuditEvent) :=
  { logger := a.logger, events := a.events, capacity := a.capacity, closed := a.closed,
    storage := (a.storage, []), Store := recordingStore a.Store, running := a.running,
    workers := a.workers }

/-- The entry `processEvents` writes to the structured logger for an event. -/
def auditEntry (event : AuditEvent) : LogEntry :=
  ⟨"info", "Audit event",
    [Field.Time "timestamp" event.Timestamp, Field.String "tenant_id" event.TenantID,
     Field.String "user_id" event.UserID, Field.String "action" event.Action,
     Field.String "resource" event.Resource, Field.String "result" event.Result]⟩

/-- A storage for concrete runs: `Store` fails on the events whose action is
"B" and counts the events it accepted. -/
def flakyStore : StoreFn Nat :=
  fun event n => if event.Action = "B" then (some (GoError.errorf "disk full"), n) else (none, n + 1)

/-! ## Plugin registry: the end-to-end scenario -/

/-- The scenario, step 1: `Register(plugin)`. -/
def scenarioRegister {Cfg W : Type} (r : DefaultPluginRegistry Cfg W) (plugin : Plugin Cfg W)
    (w : W) : Option GoError × DefaultPluginRegistry Cfg W × W :=
  Register r plugin w

/-- The scenario, step 2: `EnablePlugin` of the plugin's name after step 1. -/
def scenarioEnable {Cfg W : Type} (r : DefaultPluginRegistry Cfg W) (plugin : Plugin Cfg W)
    (w : W) : Option GoError × DefaultPluginRegistry Cfg W × W :=
  EnablePlugin (scenarioRegister r plugin w).2.1 plugin.Name (scenarioRegister r plugin w).2.2

/-- The scenario, step 3: `DisablePlugin` of the plugin's name after step 2. -/
def scenarioDisable {Cfg W : Type} (r : DefaultPluginRegistry Cfg W) (plugin : Plugin Cfg W)
    (w : W) : Option GoError × DefaultPluginRegistry Cfg W × W :=
  DisablePlugin (scenarioEnable r plugin w).2.1 plugin.Name (scenarioEnable r plugin w).2.2

/-- The scenario, step 4: `Unregister` of the plugin's name after step 3. -/
def scenarioUnregister {Cfg W : Type} (r : DefaultPluginRegistry Cfg W) (plugin : Plugin Cfg W)
    (w : W) : Option GoError × DefaultPluginRegistry Cfg W × W :=
  Unregister (scenarioDisable r plugin w).2.1 plugin.Name (scenarioDisable r plugin w).2.2

/-- Whether the loops over the plugin map call the plugin stored under
`name`: the name is a key of the plugin map and its enablement flag is true. -/
def visitsEnabled {Cfg W : Type} (r : DefaultPluginRegistry Cfg W) (name : String) : Bool :=
  (r.plugins name).isSome && mapBool r.enabledPlugins name

/-- A registry for concrete runs: "A" is enabled and its `Start` and `Stop`
fail, "B" is disabled. -/
def sampleRegistry : DefaultPluginRegistry Unit (List Lifecycle) :=
  { plugins := mapSet (mapSet (fun _ => none) "A"
      (tracedPlugin "A" none none (some (GoError.errorf "down")) (some (GoError.errorf "busy"))))
      "B" (tracedPlugin "B" none none none none),
    enabledPlugins := mapSet (mapSet (fun _ => none) "A" true) "B" false,
    logger := [] }

/-- The pool as `NewCircuitBreakerPlugin` builds it: no breaker yet. -/
def emptyPool : CircuitBreakerPlugin :=
  { breakers := fun _ => none, heap := [] }

/-- A logger for concrete runs: a live worker, the events "A", "B", "C" in
the queue of the closed channel, and the storage `flakyStore`. -/
def flakyLogger : AuditLogger Nat :=
  { logger := [], events := [sampleEvent "A" 11, sampleEvent "B" 12, sampleEvent "C" 13],
    capacity := 1000, closed := true, storage := 0, Store := flakyStore, running := false,
    workers := 1 }

/-! ## Plugin registry: reads and sequences of operations -/

/-- The method `List`: the registered plugins, in the order in which the
loop visits the keys of `r.plugins`. -/
def ListPlugins {Cfg W : Type} (r : DefaultPluginRegistry Cfg W) (order : List String) :
    List (Plugin Cfg W) :=
  order.filterMap r.plugins

/-- A call of one of the methods of the registry, with its arguments; the
loops over the plugin map come with the order in which they visit the keys. -/
inductive RegistryOp (Cfg W : Type) where
  | Register (plugin : Plugin Cfg W)
  | Unregister (name : String)
  | EnablePlugin (name : String)
  | DisablePlugin (name : String)
  | StartAll (ctx : Context) (order : List String)
  | StopAll (ctx : Context) (order : List String)
  | HealthCheckAll (ctx : Context) (order : List String)
  | Get (name : String)
  | ListPlugins (order : List String)
  | IsEnabled (name : String)

/-- The registry and the world after a call; the three reads `Get`, `List`
and `IsEnabled` only return a value. -/
def RegistryOp.apply {Cfg W : Type} (op : RegistryOp Cfg W)
    (s : DefaultPluginRegistry Cfg W × W) : DefaultPluginRegistry Cfg W × W :=
  match op with
  | .Register plugin => (Golek.Register s.1 plugin s.2).2
  | .Unregister name => (Golek.Unregister s.1 name s.2).2
  | .EnablePlugin name => (Golek.EnablePlugin s.1 name s.2).2
  | .DisablePlugin name => (Golek.DisablePlugin s.1 name s.2).2
  | .StartAll ctx order => (Golek.StartAll s.1 ctx order s.2).2
  | .StopAll ctx order => (Golek.StopAll s.1 ctx order s.2).2
  | .HealthCheckAll ctx order => (Golek.HealthCheckAll s.1 ctx order s.2).2
  | .Get _ => s
  | .ListPlugins _ => s
  | .IsEnabled _ => s

/-- The registry and the world after a sequence of calls. -/
def runOps {Cfg W : Type} (ops : List (RegistryOp Cfg W))
    (s : DefaultPluginRegistry Cfg W × W) : DefaultPluginRegistry Cfg W × W :=
  ops.foldl (fun s op => op.apply s) s

/-! ## Plugin loader (`loader.go`) -/

/-- The struct `PluginConfigEntry`; `PluginType` is its field `Type`. -/
structure PluginConfigEntry (Cfg : Type) where
  Name : String
  PluginType : String
  Version : String
  Enabled : Bool
  Config : Cfg

/-- The struct `PluginConfig`. -/
structure PluginConfig (Cfg : Type) where
  Plugins : List (PluginConfigEntry Cfg)

/-- The constructors `NewSecurityPlugin`, `NewStoragePlugin`,
`NewMessagingPlugin` and `NewObservabilityPlugin` called by `createPlugin`
are not among the sources: they are parameters, functions of the name, the
version and the configuration of the entry. -/
structure PluginFactories (Cfg W : Type) where
  NewSecurityPlugin : String → String → Cfg → Plugin Cfg W
  NewStoragePlugin : String → String → Cfg → Plugin Cfg W
  NewMessagingPlugin : String → String → Cfg → Plugin Cfg W
  NewObservabilityPlugin : String → String → Cfg → Plugin Cfg W

/-- The fields of `PluginLoader`; `logger` holds the entries written through
the logger of the loader so far. -/
structure PluginLoader (Cfg W : Type) where
  registry : DefaultPluginRegistry Cfg W
  logger : List LogEntry

/-- The method `createPlugin`: the switch on the type of the entry. -/
def createPlugin {Cfg W : Type} (fs : PluginFactories Cfg W) (cfg : PluginConfigEntry Cfg) :
    Except GoError (Plugin Cfg W) :=
  if cfg.PluginType = "security" then
    .ok (fs.NewSecurityPlugin cfg.Name cfg.Version cfg.Config)
  else if cfg.PluginType = "storage" then
    .ok (fs.NewStoragePlugin cfg.Name cfg.Version cfg.Config)
  else if cfg.PluginType = "messaging" then
    .ok (fs.NewMessagingPlugin cfg.Name cfg.Version cfg.Config)
  else if cfg.PluginType = "observability" then
    .ok (fs.NewObservabilityPlugin cfg.Name cfg.Version cfg.Config)
  else
    .error (GoError.errorf ("unknown plugin type: " ++ cfg.PluginType))

/-- The body of the loop of `LoadFromConfig` for one entry; the accumulator
is the loader and the world. -/
def loadEntry {Cfg W : Type} (fs : PluginFactories Cfg W) (acc : PluginLoader Cfg W × W)
    (pluginCfg : PluginConfigEntry Cfg) : PluginLoader Cfg W × W :=
  match createPlugin fs pluginCfg with
  | .error err =>
    ({ acc.1 with
       logger := acc.1.logger ++ [⟨"error", "Failed to create plugin",
         [Field.String "name" pluginCfg.Name, Field.Error err]⟩] },
     acc.2) -- continue
  | .ok plugin =>
    match Register acc.1.registry plugin acc.2 with
    | (some err, r1, w1) =>
      ({ registry := r1,
         logger := acc.1.logger ++ [⟨"error", "Failed to register plugin",
           [Field.String "name" pluginCfg.Name, Field.Error err]⟩] },
       w1) -- continue
    | (none, r1, w1) =>
      -- Enable if configured
      if pluginCfg.Enabled then
        match EnablePlugin r1 pluginCfg.Name w1 with
        | (some err, r2, w2) =>
          ({ registry := r2,
             logger := acc.1.logger ++ [⟨"error", "Failed to enable plugin",
               [Field.String "name" pluginCfg.Name, Field.Error err]⟩] },
           w2)
        | (none, r2, w2) => ({ acc.1 with registry := r2 }, w2)
      else
        ({ acc.1 with registry := r1 }, w1)

/-- The method `LoadFromConfig`: the returned error, the loader and the
world. -/
def LoadFromConfig {Cfg W : Type} (fs : PluginFactories Cfg W) (l : PluginLoader Cfg W)
    (config : PluginConfig Cfg) (w : W) : Option GoError × PluginLoader Cfg W × W :=
  let started : PluginLoader Cfg W :=
    { l with
      logger := l.logger ++ [⟨"info", "Loading plugins from configuration",
        [Field.Count "count" config.Plugins.length]⟩] }
  let done := config.Plugins.foldl (loadEntry fs) (started, w)
  (none, done.1, done.2)

/-- Factories for concrete runs: every constructor builds a traced plugin of
the given name whose calls succeed. -/
def sampleFactories : PluginFactories Unit (List Lifecycle) :=
  { NewSecurityPlugin := fun name _ _ => tracedPlugin name none none none none,
    NewStoragePlugin := fun name _ _ => tracedPlugin name none none none none,
    NewMessagingPlugin := fun name _ _ => tracedPlugin name none none none none,
    NewObservabilityPlugin := fun name _ _ => tracedPlugin name none none none none }

/-! ## Circuit breaker: lemmas -/

theorem runCalls_concat (cb : CircuitBreaker) (evs : List CallEvent) (ev : CallEvent) :
    runCalls cb (evs ++ [ev]) = callStep (runCalls cb evs) ev := by
  simp [runCalls, List.foldl_append]

theorem trailingFailures_concat (evs : List CallEvent) (ev : CallEvent) :
    trailingFailures (evs ++ [ev]) = if ev.failed then trailingFailures evs + 1 else 0 := by
  simp [trailingFailures, List.foldl_append]

/-- A successful call on a Closed breaker only resets the failure count. -/
theorem callStep_closed_success (cb : CircuitBreaker) (ev : CallEvent)
    (hs : cb.state = StateClosed) (hev : ev.failed = false) :
    callStep cb ev = { cb with failures := 0 } := by
  obtain ⟨now, result, later⟩ := ev
  cases result with
  | some e => simp [CallEvent.failed] at hev
  | none => simp [callStep, Call, hs]

/-- A failing call on a Closed breaker counts the failure, records its time
and opens the breaker when the count reaches the threshold. -/
theorem callStep_closed_failure (cb : CircuitBreaker) (ev : CallEvent)
    (hs : cb.state = StateClosed) (hev : ev.failed = true) :
    callStep cb ev =
      { cb with
        failures := cb.failures + 1, lastFailureTime := ev.later,
        state := if cb.failures + 1 ≥ cb.maxFailures then StateOpen else StateClosed } := by
  obtain ⟨now, result, later⟩ := ev
  cases result with
  | none => simp [CallEvent.failed] at hev
  | some e =>
    by_cases h : cb.maxFailures ≤ cb.failures + 1
    · simp [callStep, Call, hs, h]
    · simp [callStep, Call, hs, h]

/-- The failures that end a sequence are a run of exactly that length. -/
theorem replicate_suffix_iff (k : Nat) (evs : List CallEvent) :
    List.replicate k true <:+ evs.map CallEvent.failed ↔ k ≤ trailingFailures evs := by
  induction evs using List.reverseRecOn generalizing k with
  | nil =>
    cases k with
    | zero => simp [trailingFailures]
    | succ k => simp [trailingFailures, List.replicate_succ]
  | append_singleton evs ev ih =>
    rw [List.map_append, List.map_singleton, trailingFailures_concat, List.suffix_concat_iff]
    cases k with
    | zero => simp
    | succ k =>
      constructor
      · rintro (h | ⟨t, ht, hsuf⟩)
        · simp [List.replicate_succ] at h
        · rw [List.replicate_succ'] at ht
          have h1 := List.append_inj' ht (by simp)
          have h2 : ev.failed = true := by simpa using h1.2.symm
          rw [← h1.1] at hsuf
          have := (ih k).1 hsuf
          simp [h2, this]
      · intro h
        by_cases hf : ev.failed = true
        · simp only [hf, if_true] at h
          refine Or.inr ⟨List.replicate k true, ?_, (ih k).2 (by omega)⟩
          rw [List.replicate_succ', hf]
        · simp [hf] at h

/-- Appending one outcome creates a run of `n` failures exactly when one was
there already or the new outcome is a failure that ends such a run. -/
theorem hasFailureRun_concat (n : Nat) (evs : List CallEvent) (ev : CallEvent) :
    hasFailureRun n (evs ++ [ev]) ↔
      hasFailureRun n evs ∨ n ≤ trailingFailures (evs ++ [ev]) := by
  unfold hasFailureRun
  rw [← replicate_suffix_iff, List.map_append, List.map_singleton, List.infix_concat_iff]
  exact or_comm

/-- A sequence with no run of `n` failures ends in fewer than `n` failures. -/
theorem trailingFailures_lt (n : Nat) (evs : List CallEvent) (h : ¬ hasFailureRun n evs) :
    trailingFailures evs < n := by
  by_contra hge
  exact h (((replicate_suffix_iff n evs).2 (by omega)).isInfix)

/-- While no `n` consecutive calls have failed, a fresh breaker with
threshold `n` is Closed and counts the failures that end the sequence. -/
theorem runCalls_closed (name : String) (n : Nat) (r : Int) (evs : List CallEvent)
    (h : ¬ hasFailureRun n evs) :
    runCalls (freshBreaker name n r) evs =
      { freshBreaker name n r with
        failures := trailingFailures evs,
        lastFailureTime := (runCalls (freshBreaker name n r) evs).lastFailureTime } := by
  induction evs using List.reverseRecOn with
  | nil => simp [runCalls, trailingFailures, freshBreaker]
  | append_singleton evs ev ih =>
    have hno : ¬ hasFailureRun n evs := fun hc => h ((hasFailureRun_concat n evs ev).2 (Or.inl hc))
    have hlt := trailingFailures_lt n _ h
    have ih := ih hno
    rw [runCalls_concat]
    rw [trailingFailures_concat] at hlt ⊢
    generalize runCalls (freshBreaker name n r) evs = cb at ih ⊢
    have hs : cb.state = StateClosed := by rw [ih]; rfl
    by_cases hf : ev.failed = true
    · rw [callStep_closed_failure cb ev hs hf]
      simp only [hf, if_true] at hlt ⊢
      have hcnt : cb.failures = trailingFailures evs := by rw [ih]
      have hmax : cb.maxFailures = n := by rw [ih]; rfl
      have hname : cb.name = name := by rw [ih]; rfl
      have hr : cb.resetTimeout = r := by rw [ih]; rfl
      have : ¬ (cb.failures + 1 ≥ cb.maxFailures) := by rw [hcnt, hmax]; omega
      simp [this, freshBreaker, hcnt, hname, hmax, hr]
      omega
    · have hf' : ev.failed = false := by simpa using hf
      rw [callStep_closed_success cb ev hs hf']
      have hmax : cb.maxFailures = n := by rw [ih]; rfl
      have hname : cb.name = name := by rw [ih]; rfl
      have hr : cb.resetTimeout = r := by rw [ih]; rfl
      simp [hf', freshBreaker, hname, hmax, hr, hs]

/-- An Open breaker whose timeout has not elapsed rejects the call: the
guarded function is not run and nothing changes. -/
theorem Call_rejected {W : Type} (cb : CircuitBreaker) (now later : Int) (fn : Effect W) (w : W)
    (hs : cb.state = StateOpen) (ht : now - cb.lastFailureTime ≤ cb.resetTimeout) :
    Call cb now fn later w =
      (some (GoError.errorf ("circuit breaker open for " ++ cb.name)), cb, w) := by
  have : ¬ (cb.resetTimeout < now - cb.lastFailureTime) := by omega
  simp [Call, hs, this]

/-- In every other case the call returns the error of the guarded function
and the world that function left. -/
theorem Call_admitted {W : Type} (cb : CircuitBreaker) (now later : Int) (fn : Effect W) (w : W)
    (h : ¬ (cb.state = StateOpen ∧ now - cb.lastFailureTime ≤ cb.resetTimeout)) :
    (Call cb now fn later w).1 = (fn w).1 ∧ (Call cb now fn later w).2.2 = (fn w).2 := by
  unfold Call
  by_cases hs : cb.state = StateOpen
  · have ht : cb.resetTimeout < now - cb.lastFailureTime := by
      by_contra hc
      exact h ⟨hs, by omega⟩
    simp only [hs, if_true, gt_iff_lt, ht]
    rcases hfn : fn w with ⟨_ | err, w1⟩ <;> simp
  · simp only [hs, if_false]
    rcases hfn : fn w with ⟨_ | err, w1⟩ <;> simp

/-- The probe of an Open breaker whose timeout has elapsed, when the guarded
function succeeds: the breaker is Closed with no failure counted. -/
theorem Call_probe_success {W : Type} (cb : CircuitBreaker) (now later : Int) (fn : Effect W)
    (w : W) (hs : cb.state = StateOpen) (ht : now - cb.lastFailureTime > cb.resetTimeout)
    (hfn : (fn w).1 = none) :
    (Call cb now fn later w).2.1 = { cb with state := StateClosed, failures := 0 } := by
  unfold Call
  rcases hfw : fn w with ⟨_ | err, w1⟩
  · simp [hs, gt_iff_lt.1 ht]
  · simp [hfw] at hfn

/-- The probe of an Open breaker whose timeout has elapsed, when the guarded
function fails: the failure is counted and its time recorded; the breaker
opens again if the count is at the threshold and is left HalfOpen otherwise. -/
theorem Call_probe_failure {W : Type} (cb : CircuitBreaker) (now later : Int) (fn : Effect W)
    (w : W) (hs : cb.state = StateOpen) (ht : now - cb.lastFailureTime > cb.resetTimeout)
    (hfn : (fn w).1 ≠ none) :
    (Call cb now fn later w).2.1 =
      { cb with
        failures := cb.failures + 1, lastFailureTime := later,
        state := if cb.failures + 1 ≥ cb.maxFailures then StateOpen else StateHalfOpen } := by
  unfold Call
  rcases hfw : fn w with ⟨_ | err, w1⟩
  · simp [hfw] at hfn
  · by_cases h : cb.maxFailures ≤ cb.failures + 1
    · simp [hs, gt_iff_lt.1 ht, h]
    · simp [hs, gt_iff_lt.1 ht, h]

/-- A call never changes the name or the thresholds of the breaker. -/
theorem callStep_frame (cb : CircuitBreaker) (ev : CallEvent) :
    (callStep cb ev).name = cb.name ∧ (callStep cb ev).maxFailures = cb.maxFailures ∧
      (callStep cb ev).resetTimeout = cb.resetTimeout := by
  obtain ⟨now, result, later⟩ := ev
  unfold callStep Call
  by_cases hs : cb.state = StateOpen <;>
    by_cases ht : cb.resetTimeout < now - cb.lastFailureTime <;>
    cases result <;> simp [hs, ht] <;> split <;> simp

/-- Name and thresholds of a breaker after a run of calls. -/
theorem runCalls_frame (cb : CircuitBreaker) (evs : List CallEvent) :
    (runCalls cb evs).name = cb.name ∧ (runCalls cb evs).maxFailures = cb.maxFailures ∧
      (runCalls cb evs).resetTimeout = cb.resetTimeout := by
  induction evs using List.reverseRecOn with
  | nil => simp [runCalls]
  | append_singleton evs ev ih =>
    rw [runCalls_concat]
    have := callStep_frame (runCalls cb evs) ev
    exact ⟨this.1.trans ih.1, this.2.1.trans ih.2.1, this.2.2.trans ih.2.2⟩

/-- The call that completes the first run of `n` consecutive failures opens a
fresh breaker with threshold `n` and records the time of that failure. -/
theorem runCalls_opens (name : String) (n : Nat) (r : Int) (evs : List CallEvent)
    (ev : CallEvent) (hno : ¬ hasFailureRun n evs) (hrun : hasFailureRun n (evs ++ [ev])) :
    (runCalls (freshBreaker name n r) (evs ++ [ev])).state = StateOpen ∧
      (runCalls (freshBreaker name n r) (evs ++ [ev])).lastFailureTime = ev.later ∧
      (runCalls (freshBreaker name n r) (evs ++ [ev])).failures = n := by
  have hlt := trailingFailures_lt n evs hno
  have hge : n ≤ trailingFailures (evs ++ [ev]) :=
    ((hasFailureRun_concat n evs ev).1 hrun).resolve_left hno
  rw [trailingFailures_concat] at hge
  have hf : ev.failed = true := by
    by_contra hc
    simp [hc] at hge
    omega
  simp only [hf, if_true] at hge
  have hcl := runCalls_closed name n r evs hno
  rw [runCalls_concat]
  generalize runCalls (freshBreaker name n r) evs = cb at hcl ⊢
  have hs : cb.state = StateClosed := by rw [hcl]; rfl
  have hcnt : cb.failures = trailingFailures evs := by rw [hcl]
  have hmax : cb.maxFailures = n := by rw [hcl]; rfl
  rw [callStep_closed_failure cb ev hs hf]
  have hthr : cb.failures + 1 ≥ cb.maxFailures := by rw [hcnt, hmax]; omega
  refine ⟨by simp [hthr], rfl, ?_⟩
  show cb.failures + 1 = n
  rw [hcnt]; omega

/-! ## Circuit breaker: properties -/

/-- C1: for every threshold `n ≥ 1` and every sequence of outcomes applied
through `Call` to a fresh Closed breaker with `maxFailures = n`: while no `n`
consecutive outcomes are failures the breaker is Closed and its failure count
is the length of the run of failures ending the sequence (0 after a success);
the call completing the first run of `n` consecutive failures leaves it Open
with `lastFailureTime` the time of that failure.  With `maxFailures = 3`,
three consecutive failing calls take the breaker from Closed to Open. -/
theorem C1_consecutive_failures_open (name : String) (n : Nat) (r : Int) (hn : 1 ≤ n)
    (evs : List CallEvent) (hrun : ¬ hasFailureRun n evs) :
    ((runCalls (freshBreaker name n r) evs).state = StateClosed ∧
      (runCalls (freshBreaker name n r) evs).failures = trailingFailures evs) ∧
    (∀ ev : CallEvent, ev.failed = false →
      (runCalls (freshBreaker name n r) (evs ++ [ev])).state = StateClosed ∧
      (runCalls (freshBreaker name n r) (evs ++ [ev])).failures = 0) ∧
    (∀ ev : CallEvent, hasFailureRun n (evs ++ [ev]) →
      (runCalls (freshBreaker name n r) (evs ++ [ev])).state = StateOpen ∧
      (runCalls (freshBreaker name n r) (evs ++ [ev])).lastFailureTime = ev.later ∧
      (runCalls (freshBreaker name n r) (evs ++ [ev])).failures = n) ∧
    (∀ e1 e2 e3 : CallEvent, e1.failed = true → e2.failed = true → e3.failed = true →
      (runCalls (freshBreaker name 3 r) [e1, e2]).state = StateClosed ∧
      (runCalls (freshBreaker name 3 r) [e1, e2, e3]).state = StateOpen) := by
  have hn' : 0 < n := hn
  refine ⟨?_, ?_, fun ev h => runCalls_opens name n r evs ev hrun h, ?_⟩
  · have hcl := runCalls_closed name n r evs hrun
    constructor
    · rw [hcl]; rfl
    · rw [hcl]
  · intro ev hf
    have hno : ¬ hasFailureRun n (evs ++ [ev]) := by
      rw [hasFailureRun_concat, trailingFailures_concat]
      simp only [hf, Bool.false_eq_true, if_false]
      rintro (h | h)
      · exact hrun h
      · omega
    have hcl := runCalls_closed name n r (evs ++ [ev]) hno
    constructor
    · rw [hcl]; rfl
    · rw [hcl, trailingFailures_concat]; simp [hf]
  · intro e1 e2 e3 h1 h2 h3
    have hno : ¬ hasFailureRun 3 [e1, e2] := fun h => by
      have := List.IsInfix.length_le h
      simp at this
    have hyes : hasFailureRun 3 ([e1, e2] ++ [e3]) := by
      simp [hasFailureRun, h1, h2, h3, List.replicate]
    constructor
    · have hcl : runCalls (freshBreaker name 3 r) [e1, e2] = _ :=
        runCalls_closed name 3 r [e1, e2] hno
      rw [hcl]; rfl
    · exact (runCalls_opens name 3 r [e1, e2] e3 hno hyes).1

/-- C1 at a concrete run: threshold 3, a success and two failures, then a
third failure at time 31. -/
theorem C1_consecutive_failures_open_witness :
    (1 ≤ 3 ∧
      ¬ hasFailureRun 3
        [⟨5, none, 6⟩, ⟨10, some (GoError.errorf "timeout"), 11⟩,
         ⟨20, some (GoError.errorf "timeout"), 21⟩]) ∧
    (runCalls (freshBreaker "db" 3 60)
      [⟨5, none, 6⟩, ⟨10, some (GoError.errorf "timeout"), 11⟩,
       ⟨20, some (GoError.errorf "timeout"), 21⟩]).state = StateClosed ∧
    (runCalls (freshBreaker "db" 3 60)
      ([⟨5, none, 6⟩, ⟨10, some (GoError.errorf "timeout"), 11⟩,
        ⟨20, some (GoError.errorf "timeout"), 21⟩] ++
        [⟨30, some (GoError.errorf "timeout"), 31⟩])).state = StateOpen ∧
    (runCalls (freshBreaker "db" 3 60)
      ([⟨5, none, 6⟩, ⟨10, some (GoError.errorf "timeout"), 11⟩,
        ⟨20, some (GoError.errorf "timeout"), 21⟩] ++
        [⟨30, some (GoError.errorf "timeout"), 31⟩])).lastFailureTime = 31 :=
  have hno : ¬ hasFailureRun 3
      [⟨5, none, 6⟩, ⟨10, some (GoError.errorf "timeout"), 11⟩,
       ⟨20, some (GoError.errorf "timeout"), 21⟩] := by decide
  have h := C1_consecutive_failures_open "db" 3 60 (by decide) _ hno
  have h3 := h.2.2.1 ⟨30, some (GoError.errorf "timeout"), 31⟩ (by decide)
  ⟨⟨by decide, hno⟩, h.1.1, h3.1, h3.2.1⟩

/-- C2: for every breaker state, time and guarded function: an Open breaker
with `now - lastFailureTime ≤ resetTimeout` makes `Call` return the error
"circuit breaker open for <name>" without running the guarded function (the
world and the invocation counter are as before) and with every field of the
breaker unchanged; in every other case `Call` runs the guarded function
exactly once and returns what it returned. -/
theorem C2_open_rejects_else_runs_once {W : Type} (cb : CircuitBreaker) (now later : Int)
    (fn : Effect W) (w : W) (k : Nat) :
    (cb.state = StateOpen ∧ now - cb.lastFailureTime ≤ cb.resetTimeout →
      Call cb now fn later w =
        (some (GoError.errorf ("circuit breaker open for " ++ cb.name)), cb, w) ∧
      Call cb now (counted fn) later (w, k) =
        (some (GoError.errorf ("circuit breaker open for " ++ cb.name)), cb, (w, k))) ∧
    (¬ (cb.state = StateOpen ∧ now - cb.lastFailureTime ≤ cb.resetTimeout) →
      (Call cb now fn later w).1 = (fn w).1 ∧
      (Call cb now fn later w).2.2 = (fn w).2 ∧
      (Call cb now (counted fn) later (w, k)).2.2 = ((fn w).2, k + 1)) := by
  constructor
  · rintro ⟨hs, ht⟩
    exact ⟨Call_rejected cb now later fn w hs ht, Call_rejected cb now later _ (w, k) hs ht⟩
  · intro h
    have h1 := Call_admitted cb now later fn w h
    have h2 := Call_admitted cb now later (counted fn) (w, k) h
    exact ⟨h1.1, h1.2, h2.2⟩

/-- C2 at concrete breakers: an Open breaker 10 time units after its last
failure with timeout 60 rejects; the same breaker 61 units after runs the
function once and returns its error. -/
theorem C2_open_rejects_else_runs_once_witness :
    Call ⟨"db", 3, 60, StateOpen, 3, 100⟩ 110
        (counted (fun (u : Unit) => (some (GoError.errorf "boom"), u))) 111 ((), 0) =
      (some (GoError.errorf "circuit breaker open for db"), ⟨"db", 3, 60, StateOpen, 3, 100⟩,
        ((), 0)) ∧
    (Call ⟨"db", 3, 60, StateOpen, 3, 100⟩ 161
        (fun (u : Unit) => (some (GoError.errorf "boom"), u)) 162 ()).1 =
      some (GoError.errorf "boom") ∧
    (Call ⟨"db", 3, 60, StateOpen, 3, 100⟩ 161
        (counted (fun (u : Unit) => (some (GoError.errorf "boom"), u))) 162 ((), 0)).2.2 =
      ((), 1) :=
  ⟨((C2_open_rejects_else_runs_once ⟨"db", 3, 60, StateOpen, 3, 100⟩ 110 111
      (fun (u : Unit) => (some (GoError.errorf "boom"), u)) () 0).1 ⟨rfl, by decide⟩).2,
   ((C2_open_rejects_else_runs_once ⟨"db", 3, 60, StateOpen, 3, 100⟩ 161 162
      (fun (u : Unit) => (some (GoError.errorf "boom"), u)) () 0).2 (by decide)).1,
   ((C2_open_rejects_else_runs_once ⟨"db", 3, 60, StateOpen, 3, 100⟩ 161 162
      (fun (u : Unit) => (some (GoError.errorf "boom"), u)) () 0).2 (by decide)).2.2⟩

theorem Register_duplicate {Cfg W : Type} (r : DefaultPluginRegistry Cfg W) (p q : Plugin Cfg W)
    (w : W) (hq : r.plugins p.Name = some q) :
    Register r p w = (some (GoError.errorf ("plugin already registered: " ++ p.Name)), r, w) := by
  simp [Register, hq]

theorem Register_invalid {Cfg W : Type} (r : DefaultPluginRegistry Cfg W) (p : Plugin Cfg W)
    (w w1 : W) (err : GoError) (hp : r.plugins p.Name = none)
    (hval : p.ValidateConfig p.DefaultConfig w = (some err, w1)) :
    Register r p w =
      (some (GoError.wrap ("invalid default config for plugin " ++ p.Name ++ ": ") err), r, w1) := by
  simp [Register, hp, hval]

theorem Register_ok {Cfg W : Type} (r : DefaultPluginRegistry Cfg W) (p : Plugin Cfg W)
    (w w1 : W) (hp : r.plugins p.Name = none)
    (hval : p.ValidateConfig p.DefaultConfig w = (none, w1)) :
    Register r p w =
      (none,
       { plugins := mapSet r.plugins p.Name p,
         enabledPlugins := mapSet r.enabledPlugins p.Name false,
         logger := r.logger ++ [⟨"info", "Plugin registered",
           [Field.String "name" p.Name, Field.String "version" p.Version,
            Field.String "type" p.PluginType]⟩] },
       w1) := by
  simp [Register, hp, hval]

theorem EnablePlugin_not_found {Cfg W : Type} (r : DefaultPluginRegistry Cfg W) (name : String)
    (w : W) (hp : r.plugins name = none) :
    EnablePlugin r name w = (some (GoError.errorf ("plugin not found: " ++ name)), r, w) := by
  simp [EnablePlugin, hp]

theorem EnablePlugin_enabled {Cfg W : Type} (r : DefaultPluginRegistry Cfg W) (name : String)
    (p : Plugin Cfg W) (w : W) (hp : r.plugins name = some p)
    (hen : mapBool r.enabledPlugins name = true) :
    EnablePlugin r name w = (none, r, w) := by
  simp [EnablePlugin, hp, hen]

theorem EnablePlugin_init_fails {Cfg W : Type} (r : DefaultPluginRegistry Cfg W) (name : String)
    (p : Plugin Cfg W) (w w1 : W) (err : GoError) (hp : r.plugins name = some p)
    (hen : mapBool r.enabledPlugins name = false)
    (hinit : p.Initialize p.DefaultConfig w = (some err, w1)) :
    EnablePlugin r name w =
      (some (GoError.wrap ("failed to initialize plugin " ++ name ++ ": ") err), r, w1) := by
  simp [EnablePlugin, hp, hen, hinit]

theorem EnablePlugin_start_fails {Cfg W : Type} (r : DefaultPluginRegistry Cfg W) (name : String)
    (p : Plugin Cfg W) (w w1 w2 : W) (err : GoError) (hp : r.plugins name = some p)
    (hen : mapBool r.enabledPlugins name = false)
    (hinit : p.Initialize p.DefaultConfig w = (none, w1))
    (hstart : p.Start Context.Background w1 = (some err, w2)) :
    EnablePlugin r name w =
      (some (GoError.wrap ("failed to start plugin " ++ name ++ ": ") err), r, w2) := by
  simp [EnablePlugin, hp, hen, hinit, hstart]

theorem EnablePlugin_ok {Cfg W : Type} (r : DefaultPluginRegistry Cfg W) (name : String)
    (p : Plugin Cfg W) (w w1 w2 : W) (hp : r.plugins name = some p)
    (hen : mapBool r.enabledPlugins name = false)
    (hinit : p.Initialize p.DefaultConfig w = (none, w1))
    (hstart : p.Start Context.Background w1 = (none, w2)) :
    EnablePlugin r name w =
      (none,
       { r with
         enabledPlugins := mapSet r.enabledPlugins name true,
         logger := r.logger ++ [⟨"info", "Plugin enabled", [Field.String "name" name]⟩] },
       w2) := by
  simp [EnablePlugin, hp, hen, hinit, hstart]

theorem DisablePlugin_not_found {Cfg W : Type} (r : DefaultPluginRegistry Cfg W) (name : String)
    (w : W) (hp : r.plugins name = none) :
    DisablePlugin r name w = (some (GoError.errorf ("plugin not found: " ++ name)), r, w) := by
  simp [DisablePlugin, hp]

theorem DisablePlugin_disabled {Cfg W : Type} (r : DefaultPluginRegistry Cfg W) (name : String)
    (p : Plugin Cfg W) (w : W) (hp : r.plugins name = some p)
    (hen : mapBool r.enabledPlugins name = false) :
    DisablePlugin r name w = (none, r, w) := by
  simp [DisablePlugin, hp, hen]

theorem DisablePlugin_stop_fails {Cfg W : Type} (r : DefaultPluginRegistry Cfg W) (name : String)
    (p : Plugin Cfg W) (w w1 : W) (err : GoError) (hp : r.plugins name = some p)
    (hen : mapBool r.enabledPlugins name = true)
    (hstop : p.Stop Context.Background w = (some err, w1)) :
    DisablePlugin r name w =
      (some (GoError.wrap ("failed to stop plugin " ++ name ++ ": ") err), r, w1) := by
  simp [DisablePlugin, hp, hen, hstop]

theorem DisablePlugin_ok {Cfg W : Type} (r : DefaultPluginRegistry Cfg W) (name : String)
    (p : Plugin Cfg W) (w w1 : W) (hp : r.plugins name = some p)
    (hen : mapBool r.enabledPlugins name = true)
    (hstop : p.Stop Context.Background w = (none, w1)) :
    DisablePlugin r name w =
      (none,
       { r with
         enabledPlugins := mapSet r.enabledPlugins name false,
         logger := r.logger ++ [⟨"info", "Plugin disabled", [Field.String "name" name]⟩] },
       w1) := by
  simp [DisablePlugin, hp, hen, hstop]

theorem Unregister_not_found {Cfg W : Type} (r : DefaultPluginRegistry Cfg W) (name : String)
    (w : W) (hp : r.plugins name = none) :
    Unregister r name w = (some (GoError.errorf ("plugin not found: " ++ name)), r, w) := by
  simp [Unregister, hp]

theorem Unregister_disabled {Cfg W : Type} (r : DefaultPluginRegistry Cfg W) (name : String)
    (p : Plugin Cfg W) (w : W) (hp : r.plugins name = some p)
    (hen : mapBool r.enabledPlugins name = false) :
    Unregister r name w =
      (none,
       { plugins := mapDelete r.plugins name,
         enabledPlugins := mapDelete r.enabledPlugins name,
         logger := r.logger ++
           [⟨"info", "Plugin unregistered", [Field.String "name" name]⟩] },
       w) := by
  simp [Unregister, hp, hen]

theorem Unregister_enabled {Cfg W : Type} (r : DefaultPluginRegistry Cfg W) (name : String)
    (p : Plugin Cfg W) (w : W) (hp : r.plugins name = some p)
    (hen : mapBool r.enabledPlugins name = true) :
    (Unregister r name w).1 = none ∧
    (Unregister r name w).2.1.plugins = mapDelete r.plugins name ∧
    (Unregister r name w).2.1.enabledPlugins = mapDelete r.enabledPlugins name ∧
    (Unregister r name w).2.2 = (p.Stop Context.Background w).2 := by
  rcases hstop : p.Stop Context.Background w with ⟨_ | err, w1⟩ <;>
    simp [Unregister, hp, hen, hstop]

/-! ## Plugin registry: properties -/

/-- C4: for every registry state and plugin, `Register` returns nil exactly
when the name is not registered yet and `ValidateConfig(DefaultConfig())`
succeeds.  On success `Get` of the name returns the plugin and `IsEnabled` is
false.  On failure the registry is unchanged: an invalid configuration gives
an error wrapping the validation error, and a duplicate name gives the
"plugin already registered" error (validation is not even run), after which
`Get` still returns the plugin registered first and its enablement flag is as
before. -/
theorem C4_register {Cfg W : Type} (r : DefaultPluginRegistry Cfg W) (p : Plugin Cfg W) (w : W) :
    ((Register r p w).1 = none ↔
      (r.plugins p.Name = none ∧ (p.ValidateConfig p.DefaultConfig w).1 = none)) ∧
    ((Register r p w).1 = none →
      Get (Register r p w).2.1 p.Name = Except.ok p ∧
      IsEnabled (Register r p w).2.1 p.Name = false) ∧
    ((Register r p w).1 ≠ none → (Register r p w).2.1 = r) ∧
    (∀ err, r.plugins p.Name = none → (p.ValidateConfig p.DefaultConfig w).1 = some err →
      (Register r p w).1 =
        some (GoError.wrap ("invalid default config for plugin " ++ p.Name ++ ": ") err)) ∧
    (∀ q, r.plugins p.Name = some q →
      Register r p w = (some (GoError.errorf ("plugin already registered: " ++ p.Name)), r, w) ∧
      Get (Register r p w).2.1 p.Name = Except.ok q ∧
      IsEnabled (Register r p w).2.1 p.Name = IsEnabled r p.Name) := by
  rcases hreg : r.plugins p.Name with _ | q
  · rcases hval : p.ValidateConfig p.DefaultConfig w with ⟨_ | err, w1⟩
    · simp [Register_ok r p w w1 hreg hval, Get, IsEnabled, mapSet, mapBool]
    · simp [Register_invalid r p w w1 err hreg hval]
  · simp [Register_duplicate r p q w hreg, Get, hreg]

/-- C4 on a traced plugin: registering "P" in the empty registry succeeds and
validates once; registering another plugin named "P" afterwards fails and
runs nothing. -/
theorem C4_register_witness :
    (Register NewPluginRegistry (tracedPlugin "P" none none none none) []).1 = none ∧
    (Register NewPluginRegistry (tracedPlugin "P" none none none none) []).2.2 =
      [Lifecycle.Validate] ∧
    IsEnabled (Register NewPluginRegistry (tracedPlugin "P" none none none none) []).2.1 "P" =
      false ∧
    Register (Register NewPluginRegistry (tracedPlugin "P" none none none none) []).2.1
        (tracedPlugin "P" none none none (some (GoError.errorf "other"))) [] =
      (some (GoError.errorf "plugin already registered: P"),
       (Register NewPluginRegistry (tracedPlugin "P" none none none none) []).2.1, []) :=
  ⟨(C4_register NewPluginRegistry (tracedPlugin "P" none none none none) []).1.2 ⟨rfl, rfl⟩,
   rfl,
   ((C4_register NewPluginRegistry (tracedPlugin "P" none none none none) []).2.1
      ((C4_register NewPluginRegistry (tracedPlugin "P" none none none none) []).1.2
        ⟨rfl, rfl⟩)).2,
   ((C4_register (Register NewPluginRegistry (tracedPlugin "P" none none none none) []).2.1
      (tracedPlugin "P" none none none (some (GoError.errorf "other"))) []).2.2.2.2
      (tracedPlugin "P" none none none none) (by simp [Register, NewPluginRegistry, mapSet, tracedPlugin])).1⟩

/-- C5: `EnablePlugin` fails with "plugin not found" on a name that is not
registered.  On a registered, disabled plugin it runs
`Initialize(DefaultConfig())` and then `Start`, in that order, and does not
run `Start` when `Initialize` fails; it returns nil exactly when both
succeed, and then the plugin is enabled; when one of them fails it returns an
error wrapping the error of that call and the registry is unchanged, the
plugin still disabled. -/
theorem C5_enable_plugin {Cfg W : Type} (r : DefaultPluginRegistry Cfg W) (name : String) (w : W) :
    (r.plugins name = none →
      EnablePlugin r name w = (some (GoError.errorf ("plugin not found: " ++ name)), r, w)) ∧
    (∀ p, r.plugins name = some p → IsEnabled r name = false →
      (∀ err, (p.Initialize p.DefaultConfig w).1 = some err →
        EnablePlugin r name w =
          (some (GoError.wrap ("failed to initialize plugin " ++ name ++ ": ") err), r,
           (p.Initialize p.DefaultConfig w).2)) ∧
      (∀ err, (p.Initialize p.DefaultConfig w).1 = none →
        (p.Start Context.Background (p.Initialize p.DefaultConfig w).2).1 = some err →
        EnablePlugin r name w =
          (some (GoError.wrap ("failed to start plugin " ++ name ++ ": ") err), r,
           (p.Start Context.Background (p.Initialize p.DefaultConfig w).2).2)) ∧
      ((p.Initialize p.DefaultConfig w).1 = none →
        (p.Start Context.Background (p.Initialize p.DefaultConfig w).2).1 = none →
        (EnablePlugin r name w).1 = none ∧
        (EnablePlugin r name w).2.2 =
          (p.Start Context.Background (p.Initialize p.DefaultConfig w).2).2 ∧
        IsEnabled (EnablePlugin r name w).2.1 name = true ∧
        (EnablePlugin r name w).2.1.plugins = r.plugins ∧
        ∀ other, other ≠ name →
          (EnablePlugin r name w).2.1.enabledPlugins other = r.enabledPlugins other) ∧
      ((EnablePlugin r name w).1 = none ↔
        ((p.Initialize p.DefaultConfig w).1 = none ∧
         (p.Start Context.Background (p.Initialize p.DefaultConfig w).2).1 = none)) ∧
      ((EnablePlugin r name w).1 ≠ none →
        (EnablePlugin r name w).2.1 = r ∧ IsEnabled (EnablePlugin r name w).2.1 name = false)) := by
  refine ⟨EnablePlugin_not_found r name w, ?_⟩
  intro p hp hdis
  have hdis' : mapBool r.enabledPlugins name = false := hdis
  rcases hinit : p.Initialize p.DefaultConfig w with ⟨_ | e1, w1⟩
  · rcases hstart : p.Start Context.Background w1 with ⟨_ | e2, w2⟩
    · simp only [EnablePlugin_ok r name p w w1 w2 hp hdis' hinit hstart, hstart]
      simp [IsEnabled, mapBool, mapSet]
      intro other hne
      simp [hne]
    · simp only [EnablePlugin_start_fails r name p w w1 w2 e2 hp hdis' hinit hstart, hstart]
      simp [hdis]
  · simp only [EnablePlugin_init_fails r name p w w1 e1 hp hdis' hinit]
    simp [hdis]

/-- C5 on traced plugins: a plugin whose `Initialize` fails is not started
and stays disabled; one whose calls succeed is initialized, then started, and
enabled. -/
theorem C5_enable_plugin_witness :
    EnablePlugin (Register NewPluginRegistry
        (tracedPlugin "P" none (some (GoError.errorf "bad")) none none) []).2.1 "P" [] =
      (some (GoError.wrap "failed to initialize plugin P: " (GoError.errorf "bad")),
       (Register NewPluginRegistry
        (tracedPlugin "P" none (some (GoError.errorf "bad")) none none) []).2.1,
       [Lifecycle.Initialize]) ∧
    ((EnablePlugin (Register NewPluginRegistry
        (tracedPlugin "P" none none none none) []).2.1 "P" []).1 = none ∧
     (EnablePlugin (Register NewPluginRegistry
        (tracedPlugin "P" none none none none) []).2.1 "P" []).2.2 =
      [Lifecycle.Initialize, Lifecycle.Start]) :=
  ⟨((C5_enable_plugin (Register NewPluginRegistry
        (tracedPlugin "P" none (some (GoError.errorf "bad")) none none) []).2.1 "P" []).2
      (tracedPlugin "P" none (some (GoError.errorf "bad")) none none)
      (by simp [Register, NewPluginRegistry, mapSet, tracedPlugin])
      (by simp [Register, NewPluginRegistry, mapSet, tracedPlugin, IsEnabled, mapBool])).1
      (GoError.errorf "bad") rfl,
   ⟨(((C5_enable_plugin (Register NewPluginRegistry
        (tracedPlugin "P" none none none none) []).2.1 "P" []).2
      (tracedPlugin "P" none none none none)
      (by simp [Register, NewPluginRegistry, mapSet, tracedPlugin])
      (by simp [Register, NewPluginRegistry, mapSet, tracedPlugin, IsEnabled, mapBool])).2.2.1
      rfl rfl).1,
    (((C5_enable_plugin (Register NewPluginRegistry
        (tracedPlugin "P" none none none none) []).2.1 "P" []).2
      (tracedPlugin "P" none none none none)
      (by simp [Register, NewPluginRegistry, mapSet, tracedPlugin])
      (by simp [Register, NewPluginRegistry, mapSet, tracedPlugin, IsEnabled, mapBool])).2.2.1
      rfl rfl).2.1⟩⟩

/-- C6: `DisablePlugin` fails with "plugin not found" on a name that is not
registered.  On a registered, enabled plugin it runs `Stop` exactly once: if
`Stop` succeeds it returns nil and `IsEnabled` of the name becomes false; if
`Stop` fails it returns an error wrapping the error of `Stop`, `IsEnabled` of
the name is still true and the registry is unchanged. -/
theorem C6_disable_plugin {Cfg W : Type} (r : DefaultPluginRegistry Cfg W) (name : String)
    (w : W) :
    (r.plugins name = none →
      DisablePlugin r name w = (some (GoError.errorf ("plugin not found: " ++ name)), r, w)) ∧
    (∀ p, r.plugins name = some p → IsEnabled r name = true →
      (DisablePlugin r name w).2.2 = (p.Stop Context.Background w).2 ∧
      ((p.Stop Context.Background w).1 = none →
        (DisablePlugin r name w).1 = none ∧
        IsEnabled (DisablePlugin r name w).2.1 name = false ∧
        (DisablePlugin r name w).2.1.plugins = r.plugins ∧
        ∀ other, other ≠ name →
          (DisablePlugin r name w).2.1.enabledPlugins other = r.enabledPlugins other) ∧
      (∀ err, (p.Stop Context.Background w).1 = some err →
        (DisablePlugin r name w).1 =
          some (GoError.wrap ("failed to stop plugin " ++ name ++ ": ") err) ∧
        IsEnabled (DisablePlugin r name w).2.1 name = true ∧
        (DisablePlugin r name w).2.1 = r)) := by
  refine ⟨DisablePlugin_not_found r name w, ?_⟩
  intro p hp hen
  have hen' : mapBool r.enabledPlugins name = true := hen
  rcases hstop : p.Stop Context.Background w with ⟨_ | err, w1⟩
  · simp only [DisablePlugin_ok r name p w w1 hp hen' hstop]
    simp [IsEnabled, mapBool, mapSet]
    intro other hne
    simp [hne]
  · simp only [DisablePlugin_stop_fails r name p w w1 err hp hen' hstop]
    simp [hen]

/-- C6 on a traced plugin: disabling the enabled plugin "P" whose `Stop`
fails runs `Stop` once, returns the wrapped error and leaves "P" enabled. -/
theorem C6_disable_plugin_witness :
    (DisablePlugin (EnablePlugin (Register NewPluginRegistry
        (tracedPlugin "P" none none none (some (GoError.errorf "busy"))) []).2.1 "P" []).2.1
        "P" []).1 =
      some (GoError.wrap "failed to stop plugin P: " (GoError.errorf "busy")) ∧
    (DisablePlugin (EnablePlugin (Register NewPluginRegistry
        (tracedPlugin "P" none none none (some (GoError.errorf "busy"))) []).2.1 "P" []).2.1
        "P" []).2.2 = [Lifecycle.Stop] ∧
    IsEnabled (DisablePlugin (EnablePlugin (Register NewPluginRegistry
        (tracedPlugin "P" none none none (some (GoError.errorf "busy"))) []).2.1 "P" []).2.1
        "P" []).2.1 "P" = true :=
  have h := (C6_disable_plugin (EnablePlugin (Register NewPluginRegistry
        (tracedPlugin "P" none none none (some (GoError.errorf "busy"))) []).2.1 "P" []).2.1
        "P" []).2 (tracedPlugin "P" none none none (some (GoError.errorf "busy")))
      (by simp [EnablePlugin, Register, NewPluginRegistry, mapSet, mapBool, tracedPlugin])
      (by simp [IsEnabled, EnablePlugin, Register, NewPluginRegistry, mapSet, mapBool,
        tracedPlugin])
  ⟨(h.2.2 (GoError.errorf "busy") rfl).1, h.1, (h.2.2 (GoError.errorf "busy") rfl).2.1⟩

/-- C10: `Unregister` returns an error exactly when the name is not
registered, and then the registry is unchanged.  Otherwise it returns nil
whatever `Stop` returns, runs `Stop` exactly once if the plugin was enabled
and not at all if it was disabled, and afterwards `Get` of the name fails with
"plugin not found", `IsEnabled` of the name is false, and the record and the
enablement flag of every other name are unchanged. -/
theorem C10_unregister {Cfg W : Type} (r : DefaultPluginRegistry Cfg W) (name : String) (w : W) :
    ((Unregister r name w).1 ≠ none ↔ r.plugins name = none) ∧
    (r.plugins name = none →
      Unregister r name w = (some (GoError.errorf ("plugin not found: " ++ name)), r, w)) ∧
    (∀ p, r.plugins name = some p →
      (Unregister r name w).1 = none ∧
      (IsEnabled r name = true → (Unregister r name w).2.2 = (p.Stop Context.Background w).2) ∧
      (IsEnabled r name = false → (Unregister r name w).2.2 = w) ∧
      Get (Unregister r name w).2.1 name =
        Except.error (GoError.errorf ("plugin not found: " ++ name)) ∧
      IsEnabled (Unregister r name w).2.1 name = false ∧
      ∀ other, other ≠ name →
        (Unregister r name w).2.1.plugins other = r.plugins other ∧
        (Unregister r name w).2.1.enabledPlugins other = r.enabledPlugins other) := by
  rcases hreg : r.plugins name with _ | p
  · simp [Unregister_not_found r name w hreg]
  · rcases hen : mapBool r.enabledPlugins name with _ | _
    · have h := Unregister_disabled r name p w hreg hen
      have hen' : (r.enabledPlugins name).getD false = false := hen
      simp [h, Get, IsEnabled, mapBool, mapDelete, hen']
      intro other hne
      exact ⟨fun h => absurd h hne, fun h => absurd h hne⟩
    · have h := Unregister_enabled r name p w hreg hen
      have hen' : (r.enabledPlugins name).getD false = true := hen
      simp [h.1, h.2.1, h.2.2.1, h.2.2.2, Get, IsEnabled, mapBool, mapDelete, hen']
      intro other hne
      exact ⟨fun h => absurd h hne, fun h => absurd h hne⟩

/-- C10 on a traced plugin: unregistering the enabled plugin "P" whose `Stop`
fails still returns nil, runs `Stop` once and removes "P". -/
theorem C10_unregister_witness :
    (Unregister (EnablePlugin (Register NewPluginRegistry
        (tracedPlugin "P" none none none (some (GoError.errorf "busy"))) []).2.1 "P" []).2.1
        "P" []).1 = none ∧
    (Unregister (EnablePlugin (Register NewPluginRegistry
        (tracedPlugin "P" none none none (some (GoError.errorf "busy"))) []).2.1 "P" []).2.1
        "P" []).2.2 = [Lifecycle.Stop] ∧
    Get (Unregister (EnablePlugin (Register NewPluginRegistry
        (tracedPlugin "P" none none none (some (GoError.errorf "busy"))) []).2.1 "P" []).2.1
        "P" []).2.1 "P" = Except.error (GoError.errorf "plugin not found: P") :=
  have h := (C10_unregister (EnablePlugin (Register NewPluginRegistry
        (tracedPlugin "P" none none none (some (GoError.errorf "busy"))) []).2.1 "P" []).2.1
        "P" []).2.2 (tracedPlugin "P" none none none (some (GoError.errorf "busy")))
      (by simp [EnablePlugin, Register, NewPluginRegistry, mapSet, mapBool, tracedPlugin])
  ⟨h.1,
   h.2.1 (by simp [IsEnabled, EnablePlugin, Register, NewPluginRegistry, mapSet, mapBool,
     tracedPlugin]),
   h.2.2.2.1⟩

/-! ## RBAC manager: lemmas and properties -/

/-- A policy grants `(resource, action)` exactly when one of its permissions
matches the resource (by "*" or exactly) and lists "*" or the action. -/
theorem hasPermission_iff (policy : Policy) (resource action : String) :
    hasPermission policy resource action = true ↔
      ∃ perm ∈ policy.Permissions,
        (perm.Resource = "*" ∨ perm.Resource = resource) ∧
        ("*" ∈ perm.Actions ∨ action ∈ perm.Actions) := by
  simp only [hasPermission, List.any_eq_true, Bool.and_eq_true, Bool.or_eq_true, beq_iff_eq]
  constructor
  · rintro ⟨perm, hperm, hres, a, ha, hact⟩
    refine ⟨perm, hperm, hres, ?_⟩
    rcases hact with h | h
    · exact Or.inl (h ▸ ha)
    · exact Or.inr (h ▸ ha)
  · rintro ⟨perm, hperm, hres, hact⟩
    refine ⟨perm, hperm, hres, ?_⟩
    rcases hact with h | h
    · exact ⟨"*", h, Or.inl rfl⟩
    · exact ⟨action, h, Or.inr rfl⟩

/-- The check returns nil exactly when one of the roles has a policy that
grants the permission. -/
theorem CheckPermission_eq_none_iff (m : RBACManager) (roles : List String)
    (resource action : String) :
    CheckPermission m roles resource action = none ↔
      ∃ role ∈ roles, ∃ policy, m.policies role = some policy ∧
        hasPermission policy resource action = true := by
  unfold CheckPermission
  constructor
  · intro h
    split at h
    · rename_i hany
      rw [List.any_eq_true] at hany
      obtain ⟨role, hrole, hgrant⟩ := hany
      rcases hpol : m.policies role with _ | policy
      · simp [hpol] at hgrant
      · exact ⟨role, hrole, policy, hpol, by simpa [hpol] using hgrant⟩
    · simp at h
  · rintro ⟨role, hrole, policy, hpol, hgrant⟩
    have hany : (roles.any fun role =>
        match m.policies role with
        | some policy => hasPermission policy resource action
        | none => false) = true := by
      rw [List.any_eq_true]
      exact ⟨role, hrole, by simp [hpol, hgrant]⟩
    simp [hany]

/-- A check that does not return nil returns the permission-denied error. -/
theorem CheckPermission_denied (m : RBACManager) (roles : List String) (resource action : String)
    (h : CheckPermission m roles resource action ≠ none) :
    CheckPermission m roles resource action =
      some (GoError.errorf ("permission denied: " ++ action ++ " " ++ resource ++
        " for roles " ++ fmtStrings roles)) := by
  unfold CheckPermission at h ⊢
  split
  · rename_i hany
    simp [hany] at h
  · rfl

/-- C7: `CheckPermission` returns nil exactly when some role of the list has
a policy stored under its name with a permission whose `Resource` is "*" or
the requested resource and whose `Actions` contain "*" or the requested
action; otherwise it returns the permission-denied error, so an empty role
list and roles without policy are denied.  A role with the permission
`{"*", ["*"]}` is authorized for every pair; a role whose only permission is
`{"workflow", ["read"]}` is denied `(workflow, execute)` and
`(definition, read)`. -/
theorem C7_check_permission (m : RBACManager) (roles : List String) (resource action : String) :
    (CheckPermission m roles resource action = none ↔
      ∃ role ∈ roles, ∃ policy, m.policies role = some policy ∧
        ∃ perm ∈ policy.Permissions,
          (perm.Resource = "*" ∨ perm.Resource = resource) ∧
          ("*" ∈ perm.Actions ∨ action ∈ perm.Actions)) ∧
    (CheckPermission m roles resource action ≠ none →
      CheckPermission m roles resource action =
        some (GoError.errorf ("permission denied: " ++ action ++ " " ++ resource ++
          " for roles " ++ fmtStrings roles))) ∧
    CheckPermission m [] resource action ≠ none ∧
    ((∀ role ∈ roles, m.policies role = none) →
      CheckPermission m roles resource action ≠ none) ∧
    (∀ role policy, role ∈ roles → m.policies role = some policy →
      (⟨"*", ["*"]⟩ : Permission) ∈ policy.Permissions →
      CheckPermission m roles resource action = none) ∧
    (∀ role policy, m.policies role = some policy →
      policy.Permissions = [⟨"workflow", ["read"]⟩] →
      CheckPermission m [role] "workflow" "execute" ≠ none ∧
      CheckPermission m [role] "definition" "read" ≠ none) := by
  refine ⟨?_, CheckPermission_denied m roles resource action, ?_, ?_, ?_, ?_⟩
  · simp only [CheckPermission_eq_none_iff, hasPermission_iff]
  · simp [CheckPermission_eq_none_iff]
  · intro hnone
    rw [Ne, CheckPermission_eq_none_iff]
    rintro ⟨role, hrole, policy, hpol, -⟩
    rw [hnone role hrole] at hpol
    exact Option.noConfusion hpol
  · intro role policy hrole hpol hperm
    rw [CheckPermission_eq_none_iff]
    refine ⟨role, hrole, policy, hpol, ?_⟩
    rw [hasPermission_iff]
    exact ⟨_, hperm, Or.inl rfl, Or.inl (by simp)⟩
  · intro role policy hpol hperm
    constructor <;>
    · rw [Ne, CheckPermission_eq_none_iff]
      rintro ⟨role', hrole', policy', hpol', hgrant⟩
      rw [List.mem_singleton] at hrole'
      subst hrole'
      rw [hpol] at hpol'
      cases hpol'
      rw [hasPermission_iff, hperm] at hgrant
      simp at hgrant

/-- C7 on a concrete policy set: the role "auditor" with the only permission
`{"workflow", ["read"]}` is denied `(workflow, execute)` and
`(definition, read)`. -/
theorem C7_check_permission_witness :
    CheckPermission (AddPolicy ⟨fun _ => none⟩ "auditor" ⟨["auditor"], [⟨"workflow", ["read"]⟩]⟩)
        ["auditor"] "workflow" "execute" ≠ none ∧
    CheckPermission (AddPolicy ⟨fun _ => none⟩ "auditor" ⟨["auditor"], [⟨"workflow", ["read"]⟩]⟩)
        ["auditor"] "definition" "read" ≠ none :=
  (C7_check_permission (AddPolicy ⟨fun _ => none⟩ "auditor"
      ⟨["auditor"], [⟨"workflow", ["read"]⟩]⟩) ["auditor"] "workflow" "execute").2.2.2.2.2
    "auditor" ⟨["auditor"], [⟨"workflow", ["read"]⟩]⟩ (by simp [AddPolicy, mapSet]) rfl

/-- The policy stored under a role by `NewRBACManager`. -/
theorem NewRBACManager_policies (role : String) :
    NewRBACManager.policies role =
      if role = "viewer" then
        some { Roles := ["viewer"], Permissions := [{ Resource := "*", Actions := ["read"] }] }
      else if role = "operator" then
        some { Roles := ["operator"],
               Permissions := [{ Resource := "workflow", Actions := ["read", "execute", "cancel"] },
                               { Resource := "definition", Actions := ["read"] }] }
      else if role = "admin" then
        some { Roles := ["admin"], Permissions := [{ Resource := "*", Actions := ["*"] }] }
      else none := by
  simp [NewRBACManager, AddPolicy, mapSet]

/-- C8: on the manager built by `NewRBACManager`, for every resource and
action: "admin" is always authorized; "operator" is authorized exactly for
read, execute and cancel on "workflow" and for read on "definition"; "viewer"
is authorized exactly for the action "read"; every other role is denied
everything. -/
theorem C8_default_policies (resource action : String) :
    CheckPermission NewRBACManager ["admin"] resource action = none ∧
    (CheckPermission NewRBACManager ["operator"] resource action = none ↔
      (resource = "workflow" ∧ (action = "read" ∨ action = "execute" ∨ action = "cancel")) ∨
      (resource = "definition" ∧ action = "read")) ∧
    (CheckPermission NewRBACManager ["viewer"] resource action = none ↔ action = "read") ∧
    (∀ role, role ≠ "admin" → role ≠ "operator" → role ≠ "viewer" →
      CheckPermission NewRBACManager [role] resource action ≠ none) := by
  refine ⟨?_, ?_, ?_, ?_⟩
  · simp [CheckPermission_eq_none_iff, NewRBACManager_policies, hasPermission_iff]
  · simp [CheckPermission_eq_none_iff, NewRBACManager_policies, hasPermission_iff]
    constructor
    · rintro (⟨h1, h2⟩ | ⟨h1, h2⟩)
      · exact Or.inl ⟨h1.symm, h2⟩
      · exact Or.inr ⟨h1.symm, h2⟩
    · rintro (⟨h1, h2⟩ | ⟨h1, h2⟩)
      · exact Or.inl ⟨h1.symm, h2⟩
      · exact Or.inr ⟨h1.symm, h2⟩
  · simp [CheckPermission_eq_none_iff, NewRBACManager_policies, hasPermission_iff]
  · intro role h1 h2 h3
    simp [CheckPermission_eq_none_iff, NewRBACManager_policies, h1, h2, h3]

/-- C8 at a role outside the defaults: "guest" may not read workflows. -/
theorem C8_default_policies_witness :
    CheckPermission NewRBACManager ["guest"] "workflow" "read" ≠ none :=
  (C8_default_policies "workflow" "read").2.2.2 "guest" (by decide) (by decide) (by decide)

/-! ## Audit logger: lemmas and properties -/

/-- A logger that is not running drops every event handed to `Log`. -/
theorem performAll_logs_idle {S : Type} (a : AuditLogger S) (cs : List LogCall)
    (h : a.running = false) :
    a.performAll (cs.map AuditAction.log) = Ending.returns a := by
  induction cs with
  | nil => rfl
  | cons c cs ih =>
    simp only [List.map_cons, AuditLogger.performAll, AuditLogger.perform, AuditLogger.Log, h]
    simpa using ih

/-- Processing a list of events with the in-memory storage appends them to
the stored events in order and touches nothing else of the channel. -/
theorem foldl_processEvent (evs : List AuditEvent) (a : AuditLogger (List AuditEvent))
    (hst : a.Store = InMemoryAuditStorage.Store) :
    (evs.foldl AuditLogger.processEvent a).storage = a.storage ++ evs ∧
    (evs.foldl AuditLogger.processEvent a).events = a.events ∧
    (evs.foldl AuditLogger.processEvent a).closed = a.closed ∧
    (evs.foldl AuditLogger.processEvent a).workers = a.workers := by
  induction evs generalizing a with
  | nil => simp
  | cons e evs ih =>
    have h := ih (a.processEvent e) (by simpa [AuditLogger.processEvent] using hst)
    simp only [List.foldl_cons]
    refine ⟨?_, ?_, ?_, ?_⟩
    · rw [h.1]; simp [AuditLogger.processEvent, hst, InMemoryAuditStorage.Store]
    · rw [h.2.1]; simp [AuditLogger.processEvent]
    · rw [h.2.2.1]; simp [AuditLogger.processEvent]
    · rw [h.2.2.2]; simp [AuditLogger.processEvent]

/-- Between `Start` and `Stop`, with one worker and the in-memory storage:
the stored events followed by the buffered events are the events logged so
far, in order. -/
theorem performAll_running (acts : List AuditAction) (a a1 : AuditLogger (List AuditEvent))
    (hrun : a.running = true) (hcl : a.closed = false) (hw : a.workers = 1)
    (hst : a.Store = InMemoryAuditStorage.Store)
    (h : a.performAll acts = Ending.returns a1) :
    a1.running = true ∧ a1.closed = false ∧ a1.workers = 1 ∧
    a1.Store = InMemoryAuditStorage.Store ∧
    a1.storage ++ a1.events =
      a.storage ++ a.events ++ (loggedCalls acts).map LogCall.stamped := by
  induction acts generalizing a with
  | nil =>
    simp only [AuditLogger.performAll, Ending.returns.injEq] at h
    subst h
    simp [loggedCalls, hrun, hcl, hw, hst]
  | cons act acts ih =>
    cases act with
    | log c =>
      simp only [AuditLogger.performAll, AuditLogger.perform, AuditLogger.Log, hrun, hcl,
        if_true, Bool.false_eq_true, if_false] at h
      by_cases hcap : a.events.length < a.capacity
      · simp only [hcap, if_true] at h
        have := ih _ (by simp) (by simp) (by exact hw) (by exact hst) h
        simpa [loggedCalls, LogCall.stamped] using this
      · simp [hcap] at h
    | work =>
      simp only [AuditLogger.performAll, AuditLogger.perform] at h
      have hstep : a.workerStep.running = true ∧ a.workerStep.closed = false ∧
          a.workerStep.workers = 1 ∧ a.workerStep.Store = InMemoryAuditStorage.Store ∧
          a.workerStep.storage ++ a.workerStep.events = a.storage ++ a.events := by
        unfold AuditLogger.workerStep
        rcases hev : a.events with _ | ⟨e, rest⟩
        · simp [hw, hcl, hrun, hst, hev]
        · simp [hw, hcl, hrun, hst, AuditLogger.processEvent, InMemoryAuditStorage.Store]
      have := ih _ hstep.1 hstep.2.1 hstep.2.2.1 hstep.2.2.2.1 h
      rw [hstep.2.2.2.2] at this
      simpa [loggedCalls] using this

/-- A round of the worker never lengthens the buffer and leaves the channel
open or closed as it was. -/
theorem workerStep_buffer {S : Type} (a : AuditLogger S) :
    a.workerStep.events.length ≤ a.events.length ∧ a.workerStep.capacity = a.capacity ∧
    a.workerStep.running = a.running ∧ a.workerStep.closed = a.closed := by
  unfold AuditLogger.workerStep
  by_cases hw : a.workers = 0
  · simp [hw]
  · rcases hev : a.events with _ | ⟨e, rest⟩
    · by_cases hc : a.closed = true <;> simp [hw, hc, hev]
    · simp [hw, AuditLogger.processEvent]

/-- Between `Start` and `Stop` no call blocks or panics as long as the
buffered events and the events still to be logged fit the capacity. -/
theorem performAll_returns {S : Type} (acts : List AuditAction) (a : AuditLogger S)
    (hrun : a.running = true) (hcl : a.closed = false)
    (hfit : a.events.length + (loggedCalls acts).length ≤ a.capacity) :
    ∃ a1, a.performAll acts = Ending.returns a1 := by
  induction acts generalizing a with
  | nil => exact ⟨a, rfl⟩
  | cons act acts ih =>
    cases act with
    | log c =>
      simp only [loggedCalls, List.length_cons] at hfit
      have hcap : a.events.length < a.capacity := by omega
      simp only [AuditLogger.performAll, AuditLogger.perform, AuditLogger.Log, hrun, hcl,
        if_true, Bool.false_eq_true, if_false, hcap]
      exact ih _ (by simp) (by simp) (by simp; omega)
    | work =>
      simp only [loggedCalls] at hfit
      have hb := workerStep_buffer a
      simp only [AuditLogger.performAll, AuditLogger.perform]
      exact ih _ (hb.2.2.1.trans hrun) (hb.2.2.2.trans hcl) (by rw [hb.2.1]; omega)

theorem loggedCalls_map_log (cs : List LogCall) :
    loggedCalls (cs.map AuditAction.log) = cs := by
  induction cs with
  | nil => rfl
  | cons c cs ih => simp [loggedCalls, ih]

/-- Processing events does not change whether the logger is running. -/
theorem foldl_processEvent_running {S : Type} (evs : List AuditEvent) (a : AuditLogger S) :
    (evs.foldl AuditLogger.processEvent a).running = a.running := by
  induction evs generalizing a with
  | nil => rfl
  | cons e evs ih => rw [List.foldl_cons, ih]; rfl

/-- The single worker of a logger whose channel is closed stores every
buffered event in order, empties the buffer and returns. -/
theorem processEvents_closed (a : AuditLogger (List AuditEvent)) (hw : a.workers = 1)
    (hcl : a.closed = true) (hst : a.Store = InMemoryAuditStorage.Store) :
    a.processEvents.storage = a.storage ++ a.events ∧ a.processEvents.events = [] ∧
    a.processEvents.workers = 0 ∧ a.processEvents.running = a.running := by
  have hfold := foldl_processEvent a.events { a with events := [] } hst
  have hclosed :
      (a.events.foldl AuditLogger.processEvent { a with events := [] }).closed = true :=
    hfold.2.2.1.trans hcl
  have hrunning := foldl_processEvent_running a.events { a with events := [] }
  have hne : ¬ a.workers = 0 := by omega
  unfold AuditLogger.processEvents
  simp only [hne, if_false, hclosed, if_true]
  refine ⟨hfold.1, hfold.2.1, ?_, hrunning⟩
  show (a.events.foldl AuditLogger.processEvent { a with events := [] }).workers - 1 = 0
  rw [hfold.2.2.2]
  show a.workers - 1 = 0
  omega

/-- The run of the default logger returns whenever what happens between
`Start` and `Stop` returns, and then every event logged in between has been
stored, in order, the buffer is empty and the worker has returned. -/
theorem auditRun_of_during (before : List LogCall) (during : List AuditAction)
    (after : List LogCall) (a2 : AuditLogger (List AuditEvent))
    (h : NewAuditLogger.Start.performAll during = Ending.returns a2) :
    ∃ final, auditRun NewAuditLogger before during after = Ending.returns final ∧
      final.storage = (loggedCalls during).map LogCall.stamped ∧
      final.events = [] ∧ final.workers = 0 ∧ final.running = false := by
  have hinv := performAll_running during NewAuditLogger.Start a2 rfl rfl rfl rfl h
  obtain ⟨hrun, hcl, hw, hst, hall⟩ := hinv
  have hstop : a2.Stop = Ending.returns { a2 with running := false, closed := true } := by
    simp [AuditLogger.Stop, hcl]
  have hafter := performAll_logs_idle { a2 with running := false, closed := true } after rfl
  have hend : auditRun NewAuditLogger before during after =
      Ending.returns (AuditLogger.processEvents { a2 with running := false, closed := true }) := by
    simp only [auditRun, performAll_logs_idle NewAuditLogger before rfl, h, hstop, hafter]
  have hproc := processEvents_closed { a2 with running := false, closed := true } hw rfl hst
  refine ⟨_, hend, ?_, hproc.2.1, hproc.2.2.1, hproc.2.2.2⟩
  rw [hproc.1]
  simpa [NewAuditLogger, AuditLogger.Start] using hall

/-- C9: in the sequential run of the default audit logger (`Log` calls, then
`Start`, then `Log` calls possibly interleaved with rounds of the worker, then
`Stop`, then `Log` calls, then the worker runs until the queue is exhausted):
with at most 1000 events logged between `Start` and `Stop` no call blocks and
the run returns; whenever the run returns, the events handed to `Store` are
exactly the events logged between `Start` and `Stop`, each with the timestamp
`Log` gave it, in the order they were logged, whether they were consumed
before `Stop` or still buffered at that moment; the events handed to `Log`
before `Start` or after `Stop` are not stored. -/
theorem C9_audit_order (before : List LogCall) (during : List AuditAction)
    (after : List LogCall) :
    ((loggedCalls during).length ≤ 1000 →
      ∃ final, auditRun NewAuditLogger before during after = Ending.returns final) ∧
    (∀ final, auditRun NewAuditLogger before during after = Ending.returns final →
      final.storage = (loggedCalls during).map LogCall.stamped ∧
      final.events = [] ∧ final.workers = 0) ∧
    (∀ mid : List LogCall, mid.length ≤ 1000 →
      ∃ final, auditRun NewAuditLogger before (mid.map AuditAction.log) after =
          Ending.returns final ∧
        final.storage = mid.map LogCall.stamped) := by
  refine ⟨?_, ?_, ?_⟩
  · intro hlen
    obtain ⟨a2, h2⟩ := performAll_returns during NewAuditLogger.Start rfl rfl
      (by simpa [NewAuditLogger, AuditLogger.Start] using hlen)
    obtain ⟨final, hfinal, -⟩ := auditRun_of_during before during after a2 h2
    exact ⟨final, hfinal⟩
  · intro final hfinal
    rcases h2 : NewAuditLogger.Start.performAll during with a2 | _ | _
    · obtain ⟨final', hfinal', hstore, hev, hw, -⟩ :=
        auditRun_of_during before during after a2 h2
      rw [hfinal] at hfinal'
      cases hfinal'
      exact ⟨hstore, hev, hw⟩
    · simp [auditRun, performAll_logs_idle NewAuditLogger before rfl, h2] at hfinal
    · simp [auditRun, performAll_logs_idle NewAuditLogger before rfl, h2] at hfinal
  · intro mid hlen
    obtain ⟨a2, h2⟩ := performAll_returns (mid.map AuditAction.log) NewAuditLogger.Start rfl rfl
      (by simpa [NewAuditLogger, AuditLogger.Start, loggedCalls_map_log] using hlen)
    obtain ⟨final, hfinal, hstore, -⟩ :=
      auditRun_of_during before (mid.map AuditAction.log) after a2 h2
    rw [loggedCalls_map_log] at hstore
    exact ⟨final, hfinal, hstore⟩

/-- C9 at a concrete run: "early" is logged before `Start`, then A, B and C
are logged with a round of the worker after A, then `Stop`, then "late" is
logged: exactly A, B, C are stored, in that order and with the timestamps 11,
12, 13 given by `Log`. -/
theorem C9_audit_order_witness :
    (loggedCalls [AuditAction.log ⟨sampleEvent "A" 0, 11⟩, AuditAction.work,
        AuditAction.log ⟨sampleEvent "B" 0, 12⟩,
        AuditAction.log ⟨sampleEvent "C" 0, 13⟩]).length ≤ 1000 ∧
    ∃ final,
      auditRun NewAuditLogger [⟨sampleEvent "early" 0, 5⟩]
        [AuditAction.log ⟨sampleEvent "A" 0, 11⟩, AuditAction.work,
         AuditAction.log ⟨sampleEvent "B" 0, 12⟩, AuditAction.log ⟨sampleEvent "C" 0, 13⟩]
        [⟨sampleEvent "late" 0, 20⟩] = Ending.returns final ∧
      final.storage = [sampleEvent "A" 11, sampleEvent "B" 12, sampleEvent "C" 13] :=
  ⟨by decide,
   ((C9_audit_order [⟨sampleEvent "early" 0, 5⟩]
      [AuditAction.log ⟨sampleEvent "A" 0, 11⟩, AuditAction.work,
       AuditAction.log ⟨sampleEvent "B" 0, 12⟩, AuditAction.log ⟨sampleEvent "C" 0, 13⟩]
      [⟨sampleEvent "late" 0, 20⟩]).1 (by decide)).elim
    fun final h => ⟨final, h,
      ((C9_audit_order [⟨sampleEvent "early" 0, 5⟩]
        [AuditAction.log ⟨sampleEvent "A" 0, 11⟩, AuditAction.work,
         AuditAction.log ⟨sampleEvent "B" 0, 12⟩, AuditAction.log ⟨sampleEvent "C" 0, 13⟩]
        [⟨sampleEvent "late" 0, 20⟩]).2.1 final h).1⟩⟩

/-! ## Plugin registry: idempotence and the end-to-end scenario -/

/-- C11, as stated, fails: on the registered, disabled plugin "P" whose
`Start` fails, `EnablePlugin("P")` twice in a row runs `Start` twice; on the
registered, enabled plugin "P" whose `Stop` fails, `DisablePlugin("P")` twice
in a row runs `Stop` twice. -/
theorem C11_twice_counterexample :
    ((EnablePlugin
        (EnablePlugin (Register NewPluginRegistry
          (tracedPlugin "P" none none (some (GoError.errorf "down")) none) []).2.1 "P" []).2.1
        "P"
        (EnablePlugin (Register NewPluginRegistry
          (tracedPlugin "P" none none (some (GoError.errorf "down")) none) []).2.1 "P"
          []).2.2).2.2).count Lifecycle.Start = 2 ∧
    ((DisablePlugin
        (DisablePlugin (EnablePlugin (Register NewPluginRegistry
          (tracedPlugin "P" none none none (some (GoError.errorf "busy"))) []).2.1 "P" []).2.1
          "P" []).2.1
        "P"
        (DisablePlugin (EnablePlugin (Register NewPluginRegistry
          (tracedPlugin "P" none none none (some (GoError.errorf "busy"))) []).2.1 "P" []).2.1
          "P" []).2.2).2.2).count Lifecycle.Stop = 2 := by
  constructor <;>
    simp [EnablePlugin, DisablePlugin, Register, NewPluginRegistry, mapSet, mapBool,
      tracedPlugin]

/-- C11, amended: on a registered plugin that is already enabled
`EnablePlugin`, and on a registered plugin that is already disabled
`DisablePlugin`, return nil, run no method of the plugin (the world is as
before) and leave the registry unchanged.  Hence, when the first
`EnablePlugin` of a disabled plugin succeeds, the second one in a row runs
nothing, so the two run `Initialize` and `Start` exactly once; when the first
`DisablePlugin` of an enabled plugin succeeds, the second one in a row runs
nothing, so the two run `Stop` exactly once. -/
theorem C11_enable_disable_idempotent {Cfg W : Type} (r : DefaultPluginRegistry Cfg W)
    (name : String) (p : Plugin Cfg W) (w : W) (hp : r.plugins name = some p) :
    (IsEnabled r name = true → EnablePlugin r name w = (none, r, w)) ∧
    (IsEnabled r name = false → DisablePlugin r name w = (none, r, w)) ∧
    (IsEnabled r name = false → (EnablePlugin r name w).1 = none →
      (EnablePlugin r name w).2.2 =
        (p.Start Context.Background (p.Initialize p.DefaultConfig w).2).2 ∧
      EnablePlugin (EnablePlugin r name w).2.1 name (EnablePlugin r name w).2.2 =
        (none, (EnablePlugin r name w).2.1, (EnablePlugin r name w).2.2)) ∧
    (IsEnabled r name = true → (DisablePlugin r name w).1 = none →
      (DisablePlugin r name w).2.2 = (p.Stop Context.Background w).2 ∧
      DisablePlugin (DisablePlugin r name w).2.1 name (DisablePlugin r name w).2.2 =
        (none, (DisablePlugin r name w).2.1, (DisablePlugin r name w).2.2)) := by
  refine ⟨fun he => EnablePlugin_enabled r name p w hp he,
    fun he => DisablePlugin_disabled r name p w hp he, ?_, ?_⟩
  · intro he hok
    have he' : mapBool r.enabledPlugins name = false := he
    rcases hinit : p.Initialize p.DefaultConfig w with ⟨_ | e1, w1⟩
    · rcases hstart : p.Start Context.Background w1 with ⟨_ | e2, w2⟩
      · have h := EnablePlugin_ok r name p w w1 w2 hp he' hinit hstart
        rw [h]
        refine ⟨by simp [hstart], ?_⟩
        exact EnablePlugin_enabled _ name p w2 hp (by simp [mapBool, mapSet])
      · rw [EnablePlugin_start_fails r name p w w1 w2 e2 hp he' hinit hstart] at hok
        simp at hok
    · rw [EnablePlugin_init_fails r name p w w1 e1 hp he' hinit] at hok
      simp at hok
  · intro he hok
    have he' : mapBool r.enabledPlugins name = true := he
    rcases hstop : p.Stop Context.Background w with ⟨_ | e1, w1⟩
    · have h := DisablePlugin_ok r name p w w1 hp he' hstop
      rw [h]
      refine ⟨rfl, ?_⟩
      exact DisablePlugin_disabled _ name p w1 hp (by simp [mapBool, mapSet])
    · rw [DisablePlugin_stop_fails r name p w w1 e1 hp he' hstop] at hok
      simp at hok

/-- C11 amended, on a traced plugin whose calls succeed: `EnablePlugin("P")`
twice in a row leaves the trace of the first call, `Initialize` then `Start`,
each once. -/
theorem C11_enable_disable_idempotent_witness :
    (Register NewPluginRegistry (tracedPlugin "P" none none none none) []).2.1.plugins "P" =
      some (tracedPlugin "P" none none none none) ∧
    (EnablePlugin
        (EnablePlugin (Register NewPluginRegistry
          (tracedPlugin "P" none none none none) []).2.1 "P" []).2.1
        "P"
        (EnablePlugin (Register NewPluginRegistry
          (tracedPlugin "P" none none none none) []).2.1 "P" []).2.2).2.2 =
      [Lifecycle.Initialize, Lifecycle.Start] :=
  have hp : (Register NewPluginRegistry
      (tracedPlugin "P" none none none none) []).2.1.plugins "P" =
      some (tracedPlugin "P" none none none none) := by
    simp [Register, NewPluginRegistry, mapSet, tracedPlugin]
  have h := (C11_enable_disable_idempotent
    (Register NewPluginRegistry (tracedPlugin "P" none none none none) []).2.1 "P"
    (tracedPlugin "P" none none none none) [] hp).2.2.1
    (by simp [IsEnabled, Register, NewPluginRegistry, mapSet, mapBool, tracedPlugin])
    (by simp [EnablePlugin, Register, NewPluginRegistry, mapSet, mapBool, tracedPlugin])
  ⟨hp, (congrArg (fun x => x.2.2) h.2).trans h.1⟩

/-- C12: on a registry that does not hold the name of the plugin, and for a
plugin whose `ValidateConfig`, `Initialize`, `Start` and `Stop` succeed when
the scenario calls them: `Register` succeeds; `EnablePlugin` succeeds and
`IsEnabled` is then true; `DisablePlugin` succeeds and `IsEnabled` is then
false; `Unregister` succeeds; `Get` then fails with "plugin not found"; and
the plugin map and the enablement map are what they were before `Register`. -/
theorem C12_end_to_end {Cfg W : Type} (r : DefaultPluginRegistry Cfg W) (p : Plugin Cfg W)
    (w : W) (hp : r.plugins p.Name = none) (he : r.enabledPlugins p.Name = none)
    (hvalidate : (p.ValidateConfig p.DefaultConfig w).1 = none)
    (hinit : (p.Initialize p.DefaultConfig (p.ValidateConfig p.DefaultConfig w).2).1 = none)
    (hstart : (p.Start Context.Background
      (p.Initialize p.DefaultConfig (p.ValidateConfig p.DefaultConfig w).2).2).1 = none)
    (hstop : (p.Stop Context.Background (p.Start Context.Background
      (p.Initialize p.DefaultConfig (p.ValidateConfig p.DefaultConfig w).2).2).2).1 = none) :
    (scenarioRegister r p w).1 = none ∧
    (scenarioEnable r p w).1 = none ∧
    IsEnabled (scenarioEnable r p w).2.1 p.Name = true ∧
    (scenarioDisable r p w).1 = none ∧
    IsEnabled (scenarioDisable r p w).2.1 p.Name = false ∧
    (scenarioUnregister r p w).1 = none ∧
    Get (scenarioUnregister r p w).2.1 p.Name =
      Except.error (GoError.errorf ("plugin not found: " ++ p.Name)) ∧
    (scenarioUnregister r p w).2.1.plugins = r.plugins ∧
    (scenarioUnregister r p w).2.1.enabledPlugins = r.enabledPlugins := by
  rcases hv : p.ValidateConfig p.DefaultConfig w with ⟨v, w1⟩
  rw [hv] at hvalidate hinit hstart hstop
  simp only at hvalidate hinit hstart hstop
  subst hvalidate
  rcases hi : p.Initialize p.DefaultConfig w1 with ⟨i, w2⟩
  rw [hi] at hinit hstart hstop
  simp only at hinit hstart hstop
  subst hinit
  rcases hs : p.Start Context.Background w2 with ⟨s, w3⟩
  rw [hs] at hstart hstop
  simp only at hstart hstop
  subst hstart
  rcases ht : p.Stop Context.Background w3 with ⟨t, w4⟩
  rw [ht] at hstop
  simp only at hstop
  subst hstop
  have h1 : scenarioRegister r p w = _ := Register_ok r p w w1 hp hv
  have h2 : scenarioEnable r p w = _ :=
    EnablePlugin_ok (scenarioRegister r p w).2.1 p.Name p (scenarioRegister r p w).2.2 w2 w3
      (by rw [h1]; simp [mapSet]) (by rw [h1]; simp [mapBool, mapSet]) (by rw [h1]; exact hi) hs
  have h3 : scenarioDisable r p w = _ :=
    DisablePlugin_ok (scenarioEnable r p w).2.1 p.Name p (scenarioEnable r p w).2.2 w4
      (by rw [h2, h1]; simp [mapSet]) (by rw [h2]; simp [mapBool, mapSet])
      (by rw [h2]; exact ht)
  have h4 : scenarioUnregister r p w = _ :=
    Unregister_disabled (scenarioDisable r p w).2.1 p.Name p (scenarioDisable r p w).2.2
      (by rw [h3, h2, h1]; simp [mapSet]) (by rw [h3]; simp [mapBool, mapSet])
  rw [h4, h3, h2, h1]
  refine ⟨rfl, rfl, by simp [IsEnabled, mapBool, mapSet], rfl,
    by simp [IsEnabled, mapBool, mapSet], rfl, by simp [Get, mapDelete], ?_, ?_⟩
  · funext k
    by_cases hk : k = p.Name
    · simp [mapDelete, mapSet, hk, hp]
    · simp [mapDelete, mapSet, hk]
  · funext k
    by_cases hk : k = p.Name
    · simp [mapDelete, mapSet, hk, he]
    · simp [mapDelete, mapSet, hk]

/-- C12 on a traced plugin "P" in the empty registry: the four steps succeed
and run `ValidateConfig`, `Initialize`, `Start`, `Stop` in that order. -/
theorem C12_end_to_end_witness :
    (scenarioUnregister NewPluginRegistry (tracedPlugin "P" none none none none) []).1 = none ∧
    IsEnabled (scenarioEnable NewPluginRegistry (tracedPlugin "P" none none none none) []).2.1
      "P" = true ∧
    (scenarioUnregister NewPluginRegistry (tracedPlugin "P" none none none none) []).2.1.plugins
      = (NewPluginRegistry : DefaultPluginRegistry Unit (List Lifecycle)).plugins ∧
    (scenarioUnregister NewPluginRegistry (tracedPlugin "P" none none none none) []).2.2 =
      [Lifecycle.Validate, Lifecycle.Initialize, Lifecycle.Start, Lifecycle.Stop] :=
  have h := C12_end_to_end NewPluginRegistry (tracedPlugin "P" none none none none) []
    rfl rfl rfl rfl rfl rfl
  ⟨h.2.2.2.2.2.1, h.2.2.1, h.2.2.2.2.2.2.2.1,
   by simp [scenarioUnregister, scenarioDisable, scenarioEnable, scenarioRegister, Unregister,
     DisablePlugin, EnablePlugin, Register, NewPluginRegistry, mapSet, mapBool, tracedPlugin]⟩

/-! ## Plugin registry: the loops over the plugin map -/

/-- One round of the loop on the instrumented registry is the round on the
registry, with the call recorded when the plugin is enabled. -/
theorem eachEnabledBody_recorded {Cfg W : Type} (r : DefaultPluginRegistry Cfg W)
    (method : Plugin Cfg W → Effect W)
    (method' : Plugin Cfg (W × List (String × Lifecycle)) → Effect (W × List (String × Lifecycle)))
    (tag : Lifecycle) (msg : String)
    (hm : ∀ k p s, method' (recordedPlugin k p) s =
      ((method p s.1).1, ((method p s.1).2, s.2 ++ [(k, tag)])))
    (lg : List LogEntry) (w : W) (tr : List (String × Lifecycle)) (name : String) :
    eachEnabledBody (recordedRegistry r) method' msg (lg, (w, tr)) name =
      ((eachEnabledBody r method msg (lg, w) name).1,
       ((eachEnabledBody r method msg (lg, w) name).2,
        tr ++ if visitsEnabled r name then [(name, tag)] else [])) := by
  unfold eachEnabledBody visitsEnabled
  rcases hp : r.plugins name with _ | p
  · simp [recordedRegistry, hp]
  · rcases he : mapBool r.enabledPlugins name with _ | _
    · simp [recordedRegistry, hp, he]
    · rcases hres : method p w with ⟨_ | err, w1⟩ <;>
        simp [recordedRegistry, hp, he, hm, hres]

/-- The loop on the instrumented registry is the loop on the registry, with
one call recorded for every enabled key of the order, in that order. -/
theorem eachEnabled_recorded {Cfg W : Type} (r : DefaultPluginRegistry Cfg W)
    (method : Plugin Cfg W → Effect W)
    (method' : Plugin Cfg (W × List (String × Lifecycle)) → Effect (W × List (String × Lifecycle)))
    (tag : Lifecycle) (msg : String)
    (hm : ∀ k p s, method' (recordedPlugin k p) s =
      ((method p s.1).1, ((method p s.1).2, s.2 ++ [(k, tag)])))
    (order : List String) (lg : List LogEntry) (w : W) (tr : List (String × Lifecycle)) :
    order.foldl (eachEnabledBody (recordedRegistry r) method' msg) (lg, (w, tr)) =
      ((order.foldl (eachEnabledBody r method msg) (lg, w)).1,
       ((order.foldl (eachEnabledBody r method msg) (lg, w)).2,
        tr ++ (order.filter (visitsEnabled r)).map fun k => (k, tag))) := by
  induction order generalizing lg w tr with
  | nil => simp
  | cons name rest ih =>
    simp only [List.foldl_cons]
    rw [eachEnabledBody_recorded r method method' tag msg hm, ih]
    by_cases hv : visitsEnabled r name = true
    · simp [hv, List.filter_cons]
    · simp [hv, List.filter_cons]

/-- In the calls recorded for the enabled keys of an order without
repetition, every call counts once. -/
theorem count_recorded (order : List String) (P : String → Bool) (tag m : Lifecycle)
    (k : String) (hnodup : order.Nodup) :
    (((order.filter P).map fun n => (n, tag)) : List (String × Lifecycle)).count (k, m) =
      if m = tag ∧ k ∈ order ∧ P k = true then 1 else 0 := by
  induction order with
  | nil => simp
  | cons n rest ih =>
    have hn : n ∉ rest := (List.nodup_cons.1 hnodup).1
    have ih := ih (List.nodup_cons.1 hnodup).2
    by_cases hP : P n = true
    · rw [List.filter_cons_of_pos hP, List.map_cons, List.count_cons, ih]
      by_cases hk : n = k
      · subst hk
        by_cases hm : tag = m
        · subst hm
          simp [hn, hP]
        · have hm' : ¬ m = tag := fun h => hm h.symm
          simp [hm, hm']
      · have hk' : ¬ k = n := fun h => hk h.symm
        simp [hk, hk']
    · rw [List.filter_cons_of_neg hP, ih]
      by_cases hk : k = n
      · subst hk
        simp [hn, hP]
      · simp [hk]

/-- What the loops of `StartAll` and `StopAll` do, for any method and message:
the plugin map and the enablement flags are not touched by the loop body, the
instrumented run has the world of the plain run, and it records the method
once for every enabled registered key and nothing else. -/
theorem eachEnabled_calls {Cfg W : Type} (r : DefaultPluginRegistry Cfg W)
    (method : Plugin Cfg W → Effect W)
    (method' : Plugin Cfg (W × List (String × Lifecycle)) → Effect (W × List (String × Lifecycle)))
    (tag : Lifecycle) (msg : String)
    (hm : ∀ k p s, method' (recordedPlugin k p) s =
      ((method p s.1).1, ((method p s.1).2, s.2 ++ [(k, tag)])))
    (order : List String) (horder : Enumerates r.plugins order) (w : W)
    (tr : List (String × Lifecycle)) :
    (order.foldl (eachEnabledBody (recordedRegistry r) method' msg) (r.logger, (w, tr))).2.1 =
      (order.foldl (eachEnabledBody r method msg) (r.logger, w)).2 ∧
    ∀ k m,
      (order.foldl (eachEnabledBody (recordedRegistry r) method' msg)
        (r.logger, (w, tr))).2.2.count (k, m) =
        tr.count (k, m) +
          if m = tag ∧ (r.plugins k).isSome = true ∧ IsEnabled r k = true then 1 else 0 := by
  rw [eachEnabled_recorded r method method' tag msg hm]
  refine ⟨rfl, ?_⟩
  intro k m
  simp only [List.count_append]
  rw [count_recorded order (visitsEnabled r) tag m k horder.1]
  congr 1
  by_cases hmt : m = tag
  · by_cases hreg : (r.plugins k).isSome = true
    · have hk : k ∈ order := (horder.2 k).2 hreg
      simp [hmt, hreg, hk, visitsEnabled, IsEnabled]
    · have hk : k ∉ order := fun hc => hreg ((horder.2 k).1 hc)
      simp [hmt, hreg, hk]
  · simp [hmt]

/-- The order "B", "A" lists the keys of the sample registry. -/
theorem sampleRegistry_enumerates : Enumerates sampleRegistry.plugins ["B", "A"] := by
  refine ⟨by decide, ?_⟩
  intro k
  by_cases hB : k = "B"
  · simp [sampleRegistry, mapSet, hB]
  · by_cases hA : k = "A"
    · simp [sampleRegistry, mapSet, hA]
    · simp [sampleRegistry, mapSet, hA, hB]

/-- C13: for every registry state, every order in which the loop visits the
plugin map and whatever the `Start` (resp. `Stop`) calls return: `StartAll`
(resp. `StopAll`) returns nil, leaves the plugin map and the enablement map
unchanged, and runs `Start` (resp. `Stop`) exactly once on every enabled
plugin and runs no other method and nothing on a disabled plugin: the calls
recorded by the instrumented registry grow by one for `(name, Start)` (resp.
`(name, Stop)`) when `name` is registered and enabled and by nothing else. -/
theorem C13_start_all_stop_all {Cfg W : Type} (r : DefaultPluginRegistry Cfg W) (ctx : Context)
    (order : List String) (w : W) (tr : List (String × Lifecycle))
    (horder : Enumerates r.plugins order) :
    ((StartAll r ctx order w).1 = none ∧
      (StartAll r ctx order w).2.1.plugins = r.plugins ∧
      (StartAll r ctx order w).2.1.enabledPlugins = r.enabledPlugins ∧
      (StartAll (recordedRegistry r) ctx order (w, tr)).2.2.1 = (StartAll r ctx order w).2.2 ∧
      ∀ k m, (StartAll (recordedRegistry r) ctx order (w, tr)).2.2.2.count (k, m) =
        tr.count (k, m) +
          if m = Lifecycle.Start ∧ (r.plugins k).isSome = true ∧ IsEnabled r k = true
          then 1 else 0) ∧
    ((StopAll r ctx order w).1 = none ∧
      (StopAll r ctx order w).2.1.plugins = r.plugins ∧
      (StopAll r ctx order w).2.1.enabledPlugins = r.enabledPlugins ∧
      (StopAll (recordedRegistry r) ctx order (w, tr)).2.2.1 = (StopAll r ctx order w).2.2 ∧
      ∀ k m, (StopAll (recordedRegistry r) ctx order (w, tr)).2.2.2.count (k, m) =
        tr.count (k, m) +
          if m = Lifecycle.Stop ∧ (r.plugins k).isSome = true ∧ IsEnabled r k = true
          then 1 else 0) := by
  have hstart := eachEnabled_calls r (fun plugin => plugin.Start ctx)
    (fun plugin => plugin.Start ctx) Lifecycle.Start "Failed to start plugin"
    (fun k p s => rfl) order horder w tr
  have hstop := eachEnabled_calls r (fun plugin => plugin.Stop ctx)
    (fun plugin => plugin.Stop ctx) Lifecycle.Stop "Failed to stop plugin"
    (fun k p s => rfl) order horder w tr
  exact ⟨⟨rfl, rfl, rfl, hstart.1, hstart.2⟩, ⟨rfl, rfl, rfl, hstop.1, hstop.2⟩⟩

/-- C13 on the sample registry, visited in the order "B", "A": `StartAll`
returns nil although the `Start` of "A" fails, and records exactly one call,
the `Start` of the enabled plugin "A". -/
theorem C13_start_all_stop_all_witness :
    Enumerates sampleRegistry.plugins ["B", "A"] ∧
    (StartAll sampleRegistry Context.Background ["B", "A"] []).1 = none ∧
    (StartAll (recordedRegistry sampleRegistry) Context.Background ["B", "A"]
      ([], [])).2.2.2.count ("A", Lifecycle.Start) = 1 ∧
    (StartAll (recordedRegistry sampleRegistry) Context.Background ["B", "A"]
      ([], [])).2.2.2.count ("B", Lifecycle.Start) = 0 :=
  have h := (C13_start_all_stop_all sampleRegistry Context.Background ["B", "A"] [] []
    sampleRegistry_enumerates).1
  ⟨sampleRegistry_enumerates, h.1,
   (h.2.2.2.2 "A" Lifecycle.Start).trans (by
     simp [sampleRegistry, mapSet, mapBool, IsEnabled]),
   (h.2.2.2.2 "B" Lifecycle.Start).trans (by
     simp [sampleRegistry, mapSet, mapBool, IsEnabled])⟩

/-- The loop of `HealthCheckAll` leaves the entry of a key it does not
visit. -/
theorem healthCheck_fold_other {Cfg W : Type} (r : DefaultPluginRegistry Cfg W) (ctx : Context)
    (order : List String) (acc : (String → Option (Option GoError)) × W) (k : String)
    (hk : k ∉ order) :
    (order.foldl (healthCheckBody r ctx) acc).1 k = acc.1 k := by
  induction order generalizing acc with
  | nil => rfl
  | cons n rest ih =>
    have hne : k ≠ n := fun h => hk (h ▸ List.mem_cons_self _ _)
    have hrest : k ∉ rest := fun h => hk (List.mem_cons_of_mem _ h)
    rw [List.foldl_cons, ih _ hrest]
    unfold healthCheckBody
    rcases hp : r.plugins n with _ | p
    · rfl
    · by_cases he : mapBool r.enabledPlugins n = true
      · simp [he, mapSet, hne]
      · simp [he]

/-- The keys of the map built by the loop of `HealthCheckAll`: those it
started with and the enabled registered keys it visited. -/
theorem healthCheck_fold_keys {Cfg W : Type} (r : DefaultPluginRegistry Cfg W) (ctx : Context)
    (order : List String) (acc : (String → Option (Option GoError)) × W) (k : String) :
    ((order.foldl (healthCheckBody r ctx) acc).1 k).isSome = true ↔
      ((acc.1 k).isSome = true ∨ (k ∈ order ∧ visitsEnabled r k = true)) := by
  induction order generalizing acc with
  | nil => simp
  | cons n rest ih =>
    rw [List.foldl_cons, ih]
    have hbody : ((healthCheckBody r ctx acc n).1 k).isSome = true ↔
        ((acc.1 k).isSome = true ∨ (k = n ∧ visitsEnabled r k = true)) := by
      unfold healthCheckBody visitsEnabled
      rcases hp : r.plugins n with _ | p
      · constructor
        · exact Or.inl
        · rintro (h | ⟨rfl, h⟩)
          · exact h
          · simp [hp] at h
      · by_cases he : mapBool r.enabledPlugins n = true
        · by_cases hk : k = n
          · subst hk
            simp [he, hp, mapSet]
          · simp [he, mapSet, hk]
        · constructor
          · intro h
            simp only [he] at h
            exact Or.inl h
          · rintro (h | ⟨rfl, h⟩)
            · simpa [he] using h
            · simp [hp, he] at h
    rw [hbody, List.mem_cons]
    constructor
    · rintro ((h | ⟨h1, h2⟩) | ⟨h1, h2⟩)
      · exact Or.inl h
      · exact Or.inr ⟨Or.inl h1, h2⟩
      · exact Or.inr ⟨Or.inr h1, h2⟩
    · rintro (h | ⟨h1 | h1, h2⟩)
      · exact Or.inl (Or.inl h)
      · exact Or.inl (Or.inr ⟨h1, h2⟩)
      · exact Or.inr ⟨h1, h2⟩

/-- C14: for every registry state and every order in which the loop visits
the plugin map: the registry is unchanged; the keys of the map returned by
`HealthCheckAll` are exactly the names of the registered plugins that are
enabled; and the value under each key is what `HealthCheck` of that plugin
returned when the loop reached it, after the health checks of the keys
visited before it. -/
theorem C14_health_check_all {Cfg W : Type} (r : DefaultPluginRegistry Cfg W) (ctx : Context)
    (order : List String) (w : W) (horder : Enumerates r.plugins order) :
    (HealthCheckAll r ctx order w).2.1 = r ∧
    (∀ k, ((HealthCheckAll r ctx order w).1 k).isSome = true ↔
      ((r.plugins k).isSome = true ∧ IsEnabled r k = true)) ∧
    (∀ pre k post p, order = pre ++ k :: post → r.plugins k = some p → IsEnabled r k = true →
      (HealthCheckAll r ctx order w).1 k =
        some (p.HealthCheck ctx (HealthCheckAll r ctx pre w).2.2).1) := by
  refine ⟨rfl, ?_, ?_⟩
  · intro k
    show ((order.foldl (healthCheckBody r ctx) (fun _ => none, w)).1 k).isSome = true ↔ _
    rw [healthCheck_fold_keys]
    constructor
    · rintro (h | ⟨-, h⟩)
      · simp at h
      · simpa [visitsEnabled, IsEnabled] using h
    · rintro ⟨h1, h2⟩
      have h2' : mapBool r.enabledPlugins k = true := h2
      exact Or.inr ⟨(horder.2 k).2 h1, by simp [visitsEnabled, h1, h2']⟩
  · intro pre k post p horder' hp he
    have hnodup : (pre ++ k :: post).Nodup := horder' ▸ horder.1
    have hpost : k ∉ post := by
      have := (List.nodup_append.1 hnodup).2.1
      exact (List.nodup_cons.1 this).1
    show (order.foldl (healthCheckBody r ctx) (fun _ => none, w)).1 k = _
    rw [horder', List.foldl_append, List.foldl_cons, healthCheck_fold_other r ctx post _ k hpost]
    have he' : mapBool r.enabledPlugins k = true := he
    simp [healthCheckBody, hp, he', mapSet, HealthCheckAll]

/-- C14 on the sample registry, visited in the order "B", "A": the returned
map holds the enabled plugin "A" with the nil its health check returned, and
does not hold the disabled plugin "B". -/
theorem C14_health_check_all_witness :
    Enumerates sampleRegistry.plugins ["B", "A"] ∧
    (HealthCheckAll sampleRegistry Context.Background ["B", "A"] []).1 "A" = some none ∧
    ((HealthCheckAll sampleRegistry Context.Background ["B", "A"] []).1 "B").isSome = false :=
  have h := C14_health_check_all sampleRegistry Context.Background ["B", "A"] []
    sampleRegistry_enumerates
  ⟨sampleRegistry_enumerates,
   h.2.2 ["B"] "A" []
     (tracedPlugin "A" none none (some (GoError.errorf "down")) (some (GoError.errorf "busy")))
     rfl (by simp [sampleRegistry, mapSet]) (by simp [sampleRegistry, mapSet, mapBool, IsEnabled]),
   by
     rw [Bool.eq_false_iff]
     intro hc
     have := ((h.2.1 "B").1 hc).2
     simp [sampleRegistry, mapSet, mapBool, IsEnabled] at this⟩

/-! ## Circuit breaker: observation, interleaving and the pool -/

/-- The method `Call` is its first critical section, then the guarded
function, then its second critical section. -/
theorem Call_eq_steps {W : Type} (cb : CircuitBreaker) (now later : Int) (fn : Effect W)
    (w : W) :
    Call cb now fn later w =
      match Call.admission cb now with
      | none => (some (GoError.errorf ("circuit breaker open for " ++ cb.name)), cb, w)
      | some cb1 => ((fn w).1, Call.record cb1 (fn w).1 later, (fn w).2) := by
  unfold Call Call.admission
  by_cases hs : cb.state = StateOpen
  · by_cases ht : cb.resetTimeout < now - cb.lastFailureTime
    · rcases hfn : fn w with ⟨_ | err, w1⟩ <;> simp [hs, ht, Call.record]
    · simp [hs, ht]
  · rcases hfn : fn w with ⟨_ | err, w1⟩ <;> simp [hs, Call.record]

/-- A call step of a run is the two critical sections around the outcome of
the event. -/
theorem callStep_eq_steps (cb : CircuitBreaker) (ev : CallEvent) :
    callStep cb ev =
      match Call.admission cb ev.now with
      | none => cb
      | some cb1 => Call.record cb1 ev.result ev.later := by
  unfold callStep
  rw [Call_eq_steps]
  cases Call.admission cb ev.now <;> rfl

/-- After any call that leaves a breaker with a non-negative timeout Open,
the timeout has not elapsed at the last clock reading of that call. -/
theorem callStep_open_within (cb : CircuitBreaker) (ev : CallEvent) (hr : 0 ≤ cb.resetTimeout)
    (hopen : (callStep cb ev).state = StateOpen) :
    lastClock cb ev - (callStep cb ev).lastFailureTime ≤ (callStep cb ev).resetTimeout := by
  obtain ⟨now, result, later⟩ := ev
  rw [callStep_eq_steps] at hopen ⊢
  unfold lastClock
  by_cases hs : cb.state = StateOpen
  · by_cases ht : cb.resetTimeout < now - cb.lastFailureTime
    · have hnot : ¬ (now - cb.lastFailureTime ≤ cb.resetTimeout) := by omega
      cases result with
      | none => simp [Call.admission, Call.record, hs, ht] at hopen
      | some err =>
        simp only [Call.admission, Call.record, hs, ht, if_true, hnot, and_false, if_false,
          CallEvent.failed, Option.isSome_some]
        split <;> simp [hr]
    · have hin : now - cb.lastFailureTime ≤ cb.resetTimeout := by omega
      simp [Call.admission, hs, ht, hin]
  · cases result with
    | none =>
      simp only [Call.admission, Call.record, hs, if_false] at hopen
      split at hopen <;> simp_all
    | some err =>
      simp only [Call.admission, Call.record, hs, if_false, false_and, CallEvent.failed,
        Option.isSome_some, if_true]
      split <;> simp [hr]

/-- C15, as stated, fails: the default breaker after five failing calls (the
last recorded at time 51) is Open, and it is still Open at the observation
time 61000000000, later than the last call, when
`now - lastFailureTime = 60999999949` exceeds `resetTimeout = 60000000000`. -/
theorem C15_open_after_timeout_counterexample :
    (runCalls (defaultBreaker "db")
      [⟨10, some (GoError.errorf "timeout"), 11⟩, ⟨20, some (GoError.errorf "timeout"), 21⟩,
       ⟨30, some (GoError.errorf "timeout"), 31⟩, ⟨40, some (GoError.errorf "timeout"), 41⟩,
       ⟨50, some (GoError.errorf "timeout"), 51⟩]).state = StateOpen ∧
    (51 : Int) ≤ 61000000000 ∧
    ¬ ((61000000000 : Int) - (runCalls (defaultBreaker "db")
      [⟨10, some (GoError.errorf "timeout"), 11⟩, ⟨20, some (GoError.errorf "timeout"), 21⟩,
       ⟨30, some (GoError.errorf "timeout"), 31⟩, ⟨40, some (GoError.errorf "timeout"), 41⟩,
       ⟨50, some (GoError.errorf "timeout"), 51⟩]).lastFailureTime ≤
      (runCalls (defaultBreaker "db")
      [⟨10, some (GoError.errorf "timeout"), 11⟩, ⟨20, some (GoError.errorf "timeout"), 21⟩,
       ⟨30, some (GoError.errorf "timeout"), 31⟩, ⟨40, some (GoError.errorf "timeout"), 41⟩,
       ⟨50, some (GoError.errorf "timeout"), 51⟩]).resetTimeout) := by
  refine ⟨by decide, by decide, by decide⟩

/-- C15, amended: for every breaker reached from a fresh one with a
non-negative `resetTimeout` (as the one `GetBreaker` creates) by a non-empty
sequence of calls: if the state is Open after the last call, then at the last
clock reading of that call `now - lastFailureTime ≤ resetTimeout`.  (The state
is only changed by the next call, so at later observation times it can be
Open with the timeout elapsed.) -/
theorem C15_open_within_timeout_at_last_call (name : String) (n r : Int) (hr : 0 ≤ r)
    (evs : List CallEvent) (ev : CallEvent)
    (hopen : (runCalls (freshBreaker name n r) (evs ++ [ev])).state = StateOpen) :
    lastClock (runCalls (freshBreaker name n r) evs) ev -
        (runCalls (freshBreaker name n r) (evs ++ [ev])).lastFailureTime ≤
      (runCalls (freshBreaker name n r) (evs ++ [ev])).resetTimeout := by
  rw [runCalls_concat] at hopen ⊢
  have hframe := runCalls_frame (freshBreaker name n r) evs
  exact callStep_open_within _ ev (by rw [hframe.2.2]; exact hr) hopen

/-- C15 amended, on the default breaker after five failing calls: at 51, the
time the last failure was recorded, the timeout has not elapsed. -/
theorem C15_open_within_timeout_at_last_call_witness :
    (0 : Int) ≤ 60000000000 ∧
    (runCalls (freshBreaker "db" 5 60000000000)
      ([⟨10, some (GoError.errorf "timeout"), 11⟩, ⟨20, some (GoError.errorf "timeout"), 21⟩,
        ⟨30, some (GoError.errorf "timeout"), 31⟩, ⟨40, some (GoError.errorf "timeout"), 41⟩] ++
        [⟨50, some (GoError.errorf "timeout"), 51⟩])).state = StateOpen ∧
    lastClock (runCalls (freshBreaker "db" 5 60000000000)
      [⟨10, some (GoError.errorf "timeout"), 11⟩, ⟨20, some (GoError.errorf "timeout"), 21⟩,
       ⟨30, some (GoError.errorf "timeout"), 31⟩, ⟨40, some (GoError.errorf "timeout"), 41⟩])
       ⟨50, some (GoError.errorf "timeout"), 51⟩ -
      (runCalls (freshBreaker "db" 5 60000000000)
      ([⟨10, some (GoError.errorf "timeout"), 11⟩, ⟨20, some (GoError.errorf "timeout"), 21⟩,
        ⟨30, some (GoError.errorf "timeout"), 31⟩, ⟨40, some (GoError.errorf "timeout"), 41⟩] ++
        [⟨50, some (GoError.errorf "timeout"), 51⟩])).lastFailureTime ≤
      (runCalls (freshBreaker "db" 5 60000000000)
      ([⟨10, some (GoError.errorf "timeout"), 11⟩, ⟨20, some (GoError.errorf "timeout"), 21⟩,
        ⟨30, some (GoError.errorf "timeout"), 31⟩, ⟨40, some (GoError.errorf "timeout"), 41⟩] ++
        [⟨50, some (GoError.errorf "timeout"), 51⟩])).resetTimeout :=
  ⟨by decide, by decide,
   C15_open_within_timeout_at_last_call "db" 5 60000000000 (by decide) _ _ (by decide)⟩

/-- C16, as stated, fails: on an Open breaker whose timeout has elapsed,
caller 1 is admitted at time 200 (the breaker becomes HalfOpen); caller 2,
whose admission runs at time 201 while the breaker is HalfOpen and caller 1
has not recorded its outcome, is admitted too: both guarded functions are in
flight and nobody is rejected. -/
theorem C16_second_probe_counterexample :
    (SharedBreaker.run ⟨⟨"db", 3, 60, StateOpen, 3, 100⟩, [], []⟩
      [CallerStep.enter 1 200]).cb.state = StateHalfOpen ∧
    SharedBreaker.run ⟨⟨"db", 3, 60, StateOpen, 3, 100⟩, [], []⟩
      [CallerStep.enter 1 200, CallerStep.enter 2 201] =
      ⟨⟨"db", 3, 60, StateHalfOpen, 3, 100⟩, [1, 2], []⟩ := by
  constructor <;> decide

/-- C16, amended: with `Call` as two atomic steps interleaved between
callers, the admission step rejects exactly when the breaker is Open and
`resetTimeout` has not elapsed; while the breaker is HalfOpen every admission
succeeds and leaves the breaker as it is, so a second caller whose admission
runs while the breaker is HalfOpen and the first probe has not recorded its
outcome joins the callers in flight and its `Call` runs its guarded function
once. -/
theorem C16_half_open_admits {W : Type} (s : SharedBreaker) (caller : Nat) (now later : Int)
    (fn : Effect W) (w : W) :
    (Call.admission s.cb now = none ↔
      (s.cb.state = StateOpen ∧ now - s.cb.lastFailureTime ≤ s.cb.resetTimeout)) ∧
    (s.cb.state = StateHalfOpen →
      s.step (CallerStep.enter caller now) = { s with inFlight := s.inFlight ++ [caller] } ∧
      Call s.cb now fn later w = ((fn w).1, Call.record s.cb (fn w).1 later, (fn w).2)) := by
  constructor
  · unfold Call.admission
    by_cases hs : s.cb.state = StateOpen
    · by_cases ht : s.cb.resetTimeout < now - s.cb.lastFailureTime
      · simp only [hs, gt_iff_lt, ht, if_true, true_and]
        constructor
        · intro h
          exact Option.noConfusion h
        · intro h
          omega
      · simp only [hs, gt_iff_lt, ht, if_true, if_false, true_and, true_iff]
        omega
    · simp [hs]
  · intro hs
    have hadm : Call.admission s.cb now = some s.cb := by
      simp [Call.admission, hs]
    constructor
    · simp [SharedBreaker.step, hadm]
    · rw [Call_eq_steps, hadm]

/-- C16 amended, on a HalfOpen breaker with caller 1 in flight: caller 2 is
admitted as well. -/
theorem C16_half_open_admits_witness :
    (⟨⟨"db", 3, 60, StateHalfOpen, 3, 100⟩, [1], []⟩ : SharedBreaker).cb.state =
      StateHalfOpen ∧
    (⟨⟨"db", 3, 60, StateHalfOpen, 3, 100⟩, [1], []⟩ : SharedBreaker).step
        (CallerStep.enter 2 201) =
      ⟨⟨"db", 3, 60, StateHalfOpen, 3, 100⟩, [1, 2], []⟩ :=
  ⟨rfl,
   ((C16_half_open_admits ⟨⟨"db", 3, 60, StateHalfOpen, 3, 100⟩, [1], []⟩ 2 201 202
      (fun (u : Unit) => (none, u)) ()).2 rfl).1⟩

/-- C17: in sequential use, `GetBreaker` on a name that is not in the pool
stores and returns a new breaker (a pointer not allocated before) with that
name, `maxFailures` 5, `resetTimeout` 60 seconds, state Closed and failure
count 0, and leaves the pointer of every other name and every breaker
allocated before untouched; on a name that is in the pool it returns the
stored pointer, hence the breaker with its current state and counters, and
leaves the pool unchanged. -/
theorem C17_get_breaker (p : CircuitBreakerPlugin) (name : String) :
    (p.breakers name = none →
      (GetBreaker p name).2.breakers name = some (GetBreaker p name).1 ∧
      (GetBreaker p name).2.heap[(GetBreaker p name).1]? =
        some ⟨name, 5, 60000000000, StateClosed, 0, 0⟩ ∧
      p.heap[(GetBreaker p name).1]? = none ∧
      (∀ other, other ≠ name → (GetBreaker p name).2.breakers other = p.breakers other) ∧
      (∀ (ptr : Nat) (cb : CircuitBreaker), p.heap[ptr]? = some cb →
        (GetBreaker p name).2.heap[ptr]? = some cb)) ∧
    (∀ breaker, p.breakers name = some breaker → GetBreaker p name = (breaker, p)) := by
  constructor
  · intro h
    have hget : GetBreaker p name = GetBreaker.create p name := by
      simp [GetBreaker, GetBreaker.lookup, GetBreaker.afterLookup, h]
    rw [hget]
    refine ⟨by simp [GetBreaker.create, mapSet], ?_, by simp [GetBreaker.create], ?_, ?_⟩
    · simp [GetBreaker.create, defaultBreaker, freshBreaker]
    · intro other hne
      simp [GetBreaker.create, mapSet, hne]
    · intro ptr cb hcb
      have hlt : ptr < p.heap.length := by
        by_contra hc
        rw [List.getElem?_eq_none (by omega)] at hcb
        exact Option.noConfusion hcb
      simp only [GetBreaker.create]
      rw [List.getElem?_append_left hlt]
      exact hcb
  · intro breaker h
    simp [GetBreaker, GetBreaker.lookup, GetBreaker.afterLookup, h]

/-- C17 on the empty pool: the first `GetBreaker("db")` allocates the default
breaker; after a failing call through it, the second `GetBreaker("db")`
returns the same pointer and the breaker with its failure counted. -/
theorem C17_get_breaker_witness :
    (GetBreaker emptyPool "db").2.heap[(GetBreaker emptyPool "db").1]? =
      some ⟨"db", 5, 60000000000, StateClosed, 0, 0⟩ ∧
    GetBreaker (callAt (GetBreaker emptyPool "db").2 0 ⟨10, some (GoError.errorf "timeout"), 11⟩)
        "db" =
      (0, callAt (GetBreaker emptyPool "db").2 0 ⟨10, some (GoError.errorf "timeout"), 11⟩) ∧
    (callAt (GetBreaker emptyPool "db").2 0 ⟨10, some (GoError.errorf "timeout"), 11⟩).heap[0]? =
      some ⟨"db", 5, 60000000000, StateClosed, 1, 11⟩ :=
  ⟨((C17_get_breaker emptyPool "db").1 rfl).2.1,
   (C17_get_breaker (callAt (GetBreaker emptyPool "db").2 0
      ⟨10, some (GoError.errorf "timeout"), 11⟩) "db").2 0 (by
        simp [callAt, GetBreaker, GetBreaker.lookup, GetBreaker.afterLookup, GetBreaker.create,
          emptyPool, mapSet]),
   by decide⟩

/-- C18, evaluated on the code: `GetBreaker` has no second existence check in
its write-locked section.  Callers A and B both look "db" up in the empty
pool and find it absent; A creates breaker 0 and records a failure through
it; B, continuing from its own lookup, creates breaker 1 and stores it under
"db".  Two breakers exist for the name, A and B hold different instances, and
the stored breaker 0 with its counted failure has been replaced by a fresh
one. -/
theorem C18_get_breaker_race :
    GetBreaker.lookup emptyPool "db" = none ∧
    (GetBreaker.afterLookup none emptyPool "db").1 = 0 ∧
    (GetBreaker.afterLookup none
      (callAt (GetBreaker.afterLookup none emptyPool "db").2 0
        ⟨10, some (GoError.errorf "timeout"), 11⟩) "db").1 = 1 ∧
    (GetBreaker.afterLookup none
      (callAt (GetBreaker.afterLookup none emptyPool "db").2 0
        ⟨10, some (GoError.errorf "timeout"), 11⟩) "db").2.breakers "db" = some 1 ∧
    (GetBreaker.afterLookup none
      (callAt (GetBreaker.afterLookup none emptyPool "db").2 0
        ⟨10, some (GoError.errorf "timeout"), 11⟩) "db").2.heap =
      [⟨"db", 5, 60000000000, StateClosed, 1, 11⟩, ⟨"db", 5, 60000000000, StateClosed, 0, 0⟩] := by
  refine ⟨rfl, rfl, rfl, by decide, by decide⟩

/-! ## Audit logger: `Log` and the worker -/

/-- A running logger whose channel is open and has room enqueues the event
with its `Timestamp` set to the current time, and changes nothing else. -/
theorem Log_running_open {S : Type} (a : AuditLogger S) (event : AuditEvent) (now : Int)
    (hrun : a.running = true) (hcl : a.closed = false)
    (hroom : a.events.length < a.capacity) :
    a.Log event now =
      Ending.returns { a with events := a.events ++ [{ event with Timestamp := now }] } := by
  simp [AuditLogger.Log, hrun, hcl, hroom]

/-- A logger that is not running enqueues nothing and changes nothing. -/
theorem Log_idle {S : Type} (a : AuditLogger S) (event : AuditEvent) (now : Int)
    (hrun : a.running = false) :
    a.Log event now = Ending.returns a := by
  simp [AuditLogger.Log, hrun]

/-- C19, evaluated on the code: after `Start`, `Stop`, `Start` the logger is
running again but its channel is still the one `Stop` closed, and `Log` on
this running logger does not enqueue the event: the send panics. -/
theorem C19_log_after_restart_panics :
    ∃ stopped : AuditLogger (List AuditEvent),
      NewAuditLogger.Start.Stop = Ending.returns stopped ∧
      stopped.Start.running = true ∧
      stopped.Start.events = [] ∧
      stopped.Start.Log (sampleEvent "A" 0) 11 = Ending.panics :=
  ⟨{ NewAuditLogger.Start with running := false, closed := true }, rfl, rfl, rfl, rfl⟩

/-- Processing a list of events hands each of them to `Store` in order, on
the storage left by the previous one, whatever `Store` returns, and touches
neither the channel nor the workers. -/
theorem foldl_processEvent_storage {S : Type} (evs : List AuditEvent) (a : AuditLogger S) :
    (evs.foldl AuditLogger.processEvent a).storage =
      evs.foldl (fun s e => (a.Store e s).2) a.storage ∧
    (evs.foldl AuditLogger.processEvent a).Store = a.Store ∧
    (evs.foldl AuditLogger.processEvent a).events = a.events ∧
    (evs.foldl AuditLogger.processEvent a).closed = a.closed ∧
    (evs.foldl AuditLogger.processEvent a).workers = a.workers := by
  induction evs generalizing a with
  | nil => simp
  | cons e evs ih =>
    have h := ih (a.processEvent e)
    simp only [List.foldl_cons]
    exact ⟨h.1, h.2.1, h.2.2.1, h.2.2.2.1, h.2.2.2.2⟩

/-- Processing a list of events writes one "Audit event" entry per event, in
order, to the structured logger. -/
theorem foldl_processEvent_logger {S : Type} (evs : List AuditEvent) (a : AuditLogger S) :
    (evs.foldl AuditLogger.processEvent a).logger.filter (fun l => l.msg = "Audit event") =
      a.logger.filter (fun l => l.msg = "Audit event") ++ evs.map auditEntry := by
  induction evs generalizing a with
  | nil => simp
  | cons e evs ih =>
    rw [List.foldl_cons, ih]
    have hstep : (a.processEvent e).logger.filter (fun l => l.msg = "Audit event") =
        a.logger.filter (fun l => l.msg = "Audit event") ++ [auditEntry e] := by
      unfold AuditLogger.processEvent
      rcases hres : (a.Store e a.storage).1 with _ | err
      · simp [List.filter_append, auditEntry, hres]
      · simp [List.filter_append, auditEntry, hres]
    rw [hstep]
    simp

/-- With a recording storage, processing a list of events adds exactly these
events, in order, to the record, and the storage proper evolves as without
the record. -/
theorem foldl_processEvent_recorded {S : Type} (f : StoreFn S) (evs : List AuditEvent)
    (b : AuditLogger (S × List AuditEvent)) (hb : b.Store = recordingStore f) :
    (evs.foldl AuditLogger.processEvent b).storage =
      (evs.foldl (fun s e => (f e s).2) b.storage.1, b.storage.2 ++ evs) := by
  induction evs generalizing b with
  | nil => simp
  | cons e evs ih =>
    rw [List.foldl_cons, ih (b.processEvent e) hb]
    simp [AuditLogger.processEvent, hb, recordingStore]

/-- C20: for every queue content and every storage, whatever its `Store`
returns on each event: a live worker hands every queued event to `Store`
exactly once, in queue order (the record of the instrumented storage is the
queue), each on the storage left by the previous one, failed or not; it
empties the queue and writes one "Audit event" entry per event, in order, to
the structured logger; and `Log` never runs `Store`: it returns no error and
leaves storage and structured logger as they are. -/
theorem C20_worker_stores_all {S : Type} (a : AuditLogger S) (hw : a.workers ≠ 0) :
    (recordedLogger a).processEvents.storage.2 = a.events ∧
    (recordedLogger a).processEvents.storage.1 = a.processEvents.storage ∧
    a.processEvents.storage = a.events.foldl (fun s e => (a.Store e s).2) a.storage ∧
    a.processEvents.events = [] ∧
    a.processEvents.logger.filter (fun l => l.msg = "Audit event") =
      a.logger.filter (fun l => l.msg = "Audit event") ++ a.events.map auditEntry ∧
    (∀ event now a1, a.Log event now = Ending.returns a1 →
      a1.storage = a.storage ∧ a1.logger = a.logger) := by
  have hplain : ∀ {T : Type} (b : AuditLogger T), b.workers ≠ 0 →
      b.processEvents.storage =
        (b.events.foldl AuditLogger.processEvent { b with events := [] }).storage ∧
      b.processEvents.events =
        (b.events.foldl AuditLogger.processEvent { b with events := [] }).events ∧
      b.processEvents.logger =
        (b.events.foldl AuditLogger.processEvent { b with events := [] }).logger := by
    intro T b hb
    unfold AuditLogger.processEvents
    simp only [hb, if_false]
    split <;> exact ⟨rfl, rfl, rfl⟩
  have hs := foldl_processEvent_storage a.events { a with events := [] }
  have hl := foldl_processEvent_logger a.events { a with events := [] }
  have hr := foldl_processEvent_recorded a.Store (recordedLogger a).events
    { recordedLogger a with events := [] } rfl
  have hpa := hplain a hw
  have hpr := hplain (recordedLogger a) hw
  refine ⟨?_, ?_, ?_, ?_, ?_, ?_⟩
  · rw [hpr.1, hr]
    simp [recordedLogger]
  · rw [hpr.1, hr, hpa.1, hs.1]
    rfl
  · rw [hpa.1, hs.1]
  · rw [hpa.2.1, hs.2.2.1]
  · rw [hpa.2.2, hl]
  · intro event now a1 h
    unfold AuditLogger.Log at h
    split at h
    · split at h
      · exact Ending.noConfusion h
      · split at h
        · cases h
          exact ⟨rfl, rfl⟩
        · exact Ending.noConfusion h
    · cases h
      exact ⟨rfl, rfl⟩

/-- C20 on the logger whose `Store` fails on "B": the worker hands "A", "B"
and "C" to `Store` in that order, and "A" and "C" are accepted although "B"
failed in between. -/
theorem C20_worker_stores_all_witness :
    flakyLogger.workers ≠ 0 ∧
    (recordedLogger flakyLogger).processEvents.storage.2 =
      [sampleEvent "A" 11, sampleEvent "B" 12, sampleEvent "C" 13] ∧
    flakyLogger.processEvents.storage = 2 :=
  ⟨by decide, (C20_worker_stores_all flakyLogger (by decide)).1,
   (C20_worker_stores_all flakyLogger (by decide)).2.2.1.trans (by
     simp [flakyLogger, flakyStore, sampleEvent])⟩

/-! ## RBAC manager: adding and loading policies -/

/-- C21: after `AddPolicy(name, p)`, `CheckPermission([name], resource,
action)` is decided by the permissions of `p` alone: the permissions of the
policy stored under the name before are not merged in, so a permission held
only by the old policy is now denied; and the policy stored under every other
name is unchanged. -/
theorem C21_add_policy (m : RBACManager) (name : String) (p : Policy)
    (resource action : String) :
    (AddPolicy m name p).policies name = some p ∧
    (CheckPermission (AddPolicy m name p) [name] resource action = none ↔
      ∃ perm ∈ p.Permissions,
        (perm.Resource = "*" ∨ perm.Resource = resource) ∧
        ("*" ∈ perm.Actions ∨ action ∈ perm.Actions)) ∧
    (∀ old, m.policies name = some old → hasPermission old resource action = true →
      hasPermission p resource action = false →
      CheckPermission m [name] resource action = none ∧
      CheckPermission (AddPolicy m name p) [name] resource action ≠ none) ∧
    (∀ other, other ≠ name → (AddPolicy m name p).policies other = m.policies other) := by
  have hstored : (AddPolicy m name p).policies name = some p := by
    simp [AddPolicy, mapSet]
  have hiff : CheckPermission (AddPolicy m name p) [name] resource action = none ↔
      hasPermission p resource action = true := by
    rw [CheckPermission_eq_none_iff]
    constructor
    · rintro ⟨role, hrole, policy, hpol, hgrant⟩
      rw [List.mem_singleton] at hrole
      subst hrole
      rw [hstored] at hpol
      cases hpol
      exact hgrant
    · intro h
      exact ⟨name, by simp, p, hstored, h⟩
  refine ⟨hstored, ?_, ?_, ?_⟩
  · rw [hiff, hasPermission_iff]
  · intro old hold hgrant hdeny
    constructor
    · rw [CheckPermission_eq_none_iff]
      exact ⟨name, by simp, old, hold, hgrant⟩
    · rw [Ne, hiff, hdeny]
      simp
  · intro other hne
    simp [AddPolicy, mapSet, hne]

/-- C21 on the default manager: after "operator" is replaced by a policy
that only reads definitions, the operator may no longer execute workflows,
and "viewer" keeps its policy. -/
theorem C21_add_policy_witness :
    CheckPermission NewRBACManager ["operator"] "workflow" "execute" = none ∧
    CheckPermission
        (AddPolicy NewRBACManager "operator" ⟨["operator"], [⟨"definition", ["read"]⟩]⟩)
        ["operator"] "workflow" "execute" ≠ none ∧
    (AddPolicy NewRBACManager "operator" ⟨["operator"], [⟨"definition", ["read"]⟩]⟩).policies
        "viewer" = NewRBACManager.policies "viewer" :=
  have h := C21_add_policy NewRBACManager "operator"
    ⟨["operator"], [⟨"definition", ["read"]⟩]⟩ "workflow" "execute"
  have h3 := h.2.2.1
    ⟨["operator"], [⟨"workflow", ["read", "execute", "cancel"]⟩, ⟨"definition", ["read"]⟩]⟩
    (by simp [NewRBACManager_policies]) (by decide) (by decide)
  ⟨h3.1, h3.2, h.2.2.2 "viewer" (by decide)⟩

/-- C26: `LoadPolicies(config)` leaves the policy set unchanged for every
manager and every configuration, so `CheckPermission` returns after it what
it returned before it, for every list of roles, resource and action; a
manager built by `NewRBACManager` and given any configuration still holds
exactly the three default policies. -/
theorem C26_load_policies {Cfg : Type} (m : RBACManager) (config : Cfg) (roles : List String)
    (resource action : String) :
    LoadPolicies m config = m ∧
    CheckPermission (LoadPolicies m config) roles resource action =
      CheckPermission m roles resource action ∧
    CheckPermission (LoadPolicies NewRBACManager config) roles resource action =
      CheckPermission NewRBACManager roles resource action ∧
    (∀ role, (LoadPolicies NewRBACManager config).policies role =
      if role = "viewer" then
        some { Roles := ["viewer"], Permissions := [{ Resource := "*", Actions := ["read"] }] }
      else if role = "operator" then
        some { Roles := ["operator"],
               Permissions := [{ Resource := "workflow", Actions := ["read", "execute", "cancel"] },
                               { Resource := "definition", Actions := ["read"] }] }
      else if role = "admin" then
        some { Roles := ["admin"], Permissions := [{ Resource := "*", Actions := ["*"] }] }
      else none) :=
  ⟨rfl, rfl, rfl, fun role => NewRBACManager_policies role⟩

/-- C26 on the default manager given a configuration that names a policy for
"guest": "guest" is still denied and "viewer" may still read. -/
theorem C26_load_policies_witness :
    CheckPermission (LoadPolicies NewRBACManager [("guest", "workflow:read")])
      ["guest"] "workflow" "read" ≠ none ∧
    CheckPermission (LoadPolicies NewRBACManager [("guest", "workflow:read")])
      ["viewer"] "workflow" "read" = none :=
  ⟨(C26_load_policies NewRBACManager [("guest", "workflow:read")] ["guest"] "workflow"
      "read").2.2.1 ▸ (by decide),
   (C26_load_policies NewRBACManager [("guest", "workflow:read")] ["viewer"] "workflow"
      "read").2.2.1 ▸ (by decide)⟩

/-! ## Audit storage: `Store` and `Query` -/

/-- C23: on every sequence of stored events, `Store` never fails and appends
the event after the events stored before, which are not altered; `Query`
never fails and returns, in storage order, exactly the stored events whose
`TenantID` is the requested one and whose `Timestamp` is strictly after
`from` and strictly before `to`: an event stamped exactly `from` or exactly
`to`, and an event of another tenant, is not returned. -/
theorem C23_store_and_query (events : List AuditEvent) (event : AuditEvent)
    (tenantID : String) (fromT toT : Int) :
    InMemoryAuditStorage.Store event events = (none, events ++ [event]) ∧
    (InMemoryAuditStorage.Query events tenantID fromT toT).2 = none ∧
    (InMemoryAuditStorage.Query events tenantID fromT toT).1 =
      events.filter (fun e =>
        decide (e.TenantID = tenantID ∧ fromT < e.Timestamp ∧ e.Timestamp < toT)) ∧
    List.Sublist (InMemoryAuditStorage.Query events tenantID fromT toT).1 events ∧
    (∀ e, e ∈ (InMemoryAuditStorage.Query events tenantID fromT toT).1 ↔
      (e ∈ events ∧ e.TenantID = tenantID ∧ fromT < e.Timestamp ∧ e.Timestamp < toT)) ∧
    (∀ e, e.Timestamp = fromT ∨ e.Timestamp = toT ∨ e.TenantID ≠ tenantID →
      e ∉ (InMemoryAuditStorage.Query events tenantID fromT toT).1) := by
  have hmem : ∀ e, e ∈ (InMemoryAuditStorage.Query events tenantID fromT toT).1 ↔
      (e ∈ events ∧ e.TenantID = tenantID ∧ fromT < e.Timestamp ∧ e.Timestamp < toT) := by
    intro e
    simp [InMemoryAuditStorage.Query, List.mem_filter, and_assoc]
  refine ⟨rfl, rfl, ?_, ?_, hmem, ?_⟩
  · show events.filter _ = events.filter _
    congr 1
    funext e
    by_cases h : e.TenantID = tenantID <;> simp [h, Bool.and_assoc]
  · exact List.filter_sublist _
  · intro e h hc
    have := (hmem e).1 hc
    rcases h with h | h | h
    · omega
    · omega
    · exact h this.2.1

/-- C23 on three stored events of tenant "acme" stamped 10, 20 and 30: the
query from 10 to 30 returns only the event stamped 20. -/
theorem C23_store_and_query_witness :
    (InMemoryAuditStorage.Query
      [sampleEvent "A" 10, sampleEvent "B" 20, sampleEvent "C" 30] "acme" 10 30).1 =
      [sampleEvent "B" 20] ∧
    (InMemoryAuditStorage.Query
      [sampleEvent "A" 10, sampleEvent "B" 20, sampleEvent "C" 30] "other" 0 100).1 = [] :=
  ⟨(C23_store_and_query [sampleEvent "A" 10, sampleEvent "B" 20, sampleEvent "C" 30]
      (sampleEvent "D" 40) "acme" 10 30).2.2.1.trans (by decide),
   (C23_store_and_query [sampleEvent "A" 10, sampleEvent "B" 20, sampleEvent "C" 30]
      (sampleEvent "D" 40) "other" 0 100).2.2.1.trans (by decide)⟩

/-! ## Circuit breaker: the invariant of sequential use -/

/-- One call keeps the invariant of a breaker with threshold at least 1: the
state is Closed with fewer failures than the threshold, or Open with at least
as many. -/
theorem callStep_invariant (cb : CircuitBreaker) (ev : CallEvent)
    (h : (cb.state = StateClosed ∧ cb.failures < cb.maxFailures) ∨
      (cb.state = StateOpen ∧ cb.maxFailures ≤ cb.failures))
    (hn : 1 ≤ cb.maxFailures) :
    ((callStep cb ev).state = StateClosed ∧
        (callStep cb ev).failures < (callStep cb ev).maxFailures) ∨
      ((callStep cb ev).state = StateOpen ∧
        (callStep cb ev).maxFailures ≤ (callStep cb ev).failures) := by
  rcases h with ⟨hs, hc⟩ | ⟨hs, hc⟩
  · by_cases hf : ev.failed = true
    · rw [callStep_closed_failure cb ev hs hf]
      by_cases hthr : cb.failures + 1 ≥ cb.maxFailures
      · right
        exact ⟨if_pos hthr, hthr⟩
      · left
        exact ⟨if_neg hthr, by show cb.failures + 1 < cb.maxFailures; omega⟩
    · rw [callStep_closed_success cb ev hs (by simpa using hf)]
      left
      exact ⟨hs, by show (0 : Int) < cb.maxFailures; omega⟩
  · by_cases ht : ev.now - cb.lastFailureTime > cb.resetTimeout
    · rcases hres : ev.result with _ | err
      · have h : callStep cb ev = _ :=
          Call_probe_success cb ev.now ev.later (fun (u : Unit) => (ev.result, u)) () hs ht hres
        rw [h]
        left
        exact ⟨rfl, by show (0 : Int) < cb.maxFailures; omega⟩
      · have h : callStep cb ev = _ :=
          Call_probe_failure cb ev.now ev.later (fun (u : Unit) => (ev.result, u)) () hs ht
            (by simp [hres])
        have hthr : cb.failures + 1 ≥ cb.maxFailures := by omega
        rw [h]
        right
        exact ⟨if_pos hthr, hthr⟩
    · have h : callStep cb ev = cb :=
        congrArg (fun x => x.2.1)
          (Call_rejected cb ev.now ev.later (fun (u : Unit) => (ev.result, u)) () hs (by omega))
      rw [h]
      exact Or.inr ⟨hs, hc⟩

/-- C25: for every fresh Closed breaker with `maxFailures ≥ 1` and failure
count 0, the one `GetBreaker` creates included, and every sequence of
sequential calls with arbitrary outcomes, at any times: after each call the
state is Closed or Open, never HalfOpen; the failure count is below
`maxFailures` when the state is Closed and at least `maxFailures` when it is
Open. -/
theorem C25_sequential_invariant (name : String) (n r : Int) (hn : 1 ≤ n)
    (evs : List CallEvent) :
    (runCalls (freshBreaker name n r) evs).state ≠ StateHalfOpen ∧
    ((runCalls (freshBreaker name n r) evs).state = StateClosed →
      (runCalls (freshBreaker name n r) evs).failures < n) ∧
    ((runCalls (freshBreaker name n r) evs).state = StateOpen →
      n ≤ (runCalls (freshBreaker name n r) evs).failures) ∧
    ((∀ p : CircuitBreakerPlugin, p.breakers name = none →
        (GetBreaker p name).2.heap[(GetBreaker p name).1]? =
          some (freshBreaker name 5 60000000000)) ∧ (1 : Int) ≤ 5) := by
  have hinv : ((runCalls (freshBreaker name n r) evs).state = StateClosed ∧
      (runCalls (freshBreaker name n r) evs).failures <
        (runCalls (freshBreaker name n r) evs).maxFailures) ∨
      ((runCalls (freshBreaker name n r) evs).state = StateOpen ∧
        (runCalls (freshBreaker name n r) evs).maxFailures ≤
          (runCalls (freshBreaker name n r) evs).failures) := by
    induction evs using List.reverseRecOn with
    | nil =>
      left
      exact ⟨rfl, by show (0 : Int) < n; omega⟩
    | append_singleton evs ev ih =>
      rw [runCalls_concat]
      have hframe := runCalls_frame (freshBreaker name n r) evs
      exact callStep_invariant _ ev ih (by rw [hframe.2.1]; exact hn)
  have hmax : (runCalls (freshBreaker name n r) evs).maxFailures = n :=
    (runCalls_frame (freshBreaker name n r) evs).2.1
  rw [hmax] at hinv
  refine ⟨?_, ?_, ?_, ?_, by decide⟩
  · rcases hinv with ⟨hs, -⟩ | ⟨hs, -⟩ <;> rw [hs] <;> decide
  · intro hs
    rcases hinv with ⟨-, hc⟩ | ⟨hs', -⟩
    · exact hc
    · rw [hs] at hs'
      exact absurd hs' (by decide)
  · intro hs
    rcases hinv with ⟨hs', -⟩ | ⟨-, hc⟩
    · rw [hs] at hs'
      exact absurd hs' (by decide)
    · exact hc
  · intro p hp
    simp [GetBreaker, GetBreaker.lookup, GetBreaker.afterLookup, GetBreaker.create, hp,
      defaultBreaker]

/-- C25 on the default breaker: after five failures, a rejected call, a
failed probe and a successful probe, the breaker is Closed with no failure
counted; after the failed probe it was Open with six. -/
theorem C25_sequential_invariant_witness :
    (1 : Int) ≤ 5 ∧
    (runCalls (freshBreaker "db" 5 60)
      [⟨10, some (GoError.errorf "timeout"), 11⟩, ⟨20, some (GoError.errorf "timeout"), 21⟩,
       ⟨30, some (GoError.errorf "timeout"), 31⟩, ⟨40, some (GoError.errorf "timeout"), 41⟩,
       ⟨50, some (GoError.errorf "timeout"), 51⟩, ⟨60, none, 61⟩,
       ⟨200, some (GoError.errorf "timeout"), 201⟩]).state = StateOpen ∧
    (5 : Int) ≤ (runCalls (freshBreaker "db" 5 60)
      [⟨10, some (GoError.errorf "timeout"), 11⟩, ⟨20, some (GoError.errorf "timeout"), 21⟩,
       ⟨30, some (GoError.errorf "timeout"), 31⟩, ⟨40, some (GoError.errorf "timeout"), 41⟩,
       ⟨50, some (GoError.errorf "timeout"), 51⟩, ⟨60, none, 61⟩,
       ⟨200, some (GoError.errorf "timeout"), 201⟩]).failures :=
  ⟨by decide, by decide,
   (C25_sequential_invariant "db" 5 60 (by decide) _).2.2.1 (by decide)⟩

/-! ## Plugin registry: the key sets of the two maps -/

/-- Every call keeps the plugin map and the enablement map on the same
keys. -/
theorem apply_same_keys {Cfg W : Type} (op : RegistryOp Cfg W)
    (s : DefaultPluginRegistry Cfg W × W)
    (h : ∀ k, (s.1.plugins k).isSome = (s.1.enabledPlugins k).isSome) :
    ∀ k, ((op.apply s).1.plugins k).isSome = ((op.apply s).1.enabledPlugins k).isSome := by
  obtain ⟨r, w⟩ := s
  simp only at h
  intro k
  cases op with
  | Register plugin =>
    show ((Register r plugin w).2.1.plugins k).isSome =
      ((Register r plugin w).2.1.enabledPlugins k).isSome
    rcases hreg : r.plugins plugin.Name with _ | q
    · rcases hval : plugin.ValidateConfig plugin.DefaultConfig w with ⟨_ | err, w1⟩
      · rw [Register_ok r plugin w w1 hreg hval]
        by_cases hk : k = plugin.Name
        · simp [mapSet, hk]
        · simpa [mapSet, hk] using h k
      · rw [Register_invalid r plugin w w1 err hreg hval]
        exact h k
    · rw [Register_duplicate r plugin q w hreg]
      exact h k
  | Unregister name =>
    show ((Unregister r name w).2.1.plugins k).isSome =
      ((Unregister r name w).2.1.enabledPlugins k).isSome
    rcases hreg : r.plugins name with _ | p
    · rw [Unregister_not_found r name w hreg]
      exact h k
    · have hmaps : (Unregister r name w).2.1.plugins = mapDelete r.plugins name ∧
          (Unregister r name w).2.1.enabledPlugins = mapDelete r.enabledPlugins name := by
        rcases hen : mapBool r.enabledPlugins name with _ | _
        · rw [Unregister_disabled r name p w hreg hen]
          exact ⟨rfl, rfl⟩
        · have := Unregister_enabled r name p w hreg hen
          exact ⟨this.2.1, this.2.2.1⟩
      rw [hmaps.1, hmaps.2]
      by_cases hk : k = name
      · simp [mapDelete, hk]
      · simpa [mapDelete, hk] using h k
  | EnablePlugin name =>
    show ((EnablePlugin r name w).2.1.plugins k).isSome =
      ((EnablePlugin r name w).2.1.enabledPlugins k).isSome
    rcases hreg : r.plugins name with _ | p
    · rw [EnablePlugin_not_found r name w hreg]
      exact h k
    · rcases hen : mapBool r.enabledPlugins name with _ | _
      · rcases hinit : p.Initialize p.DefaultConfig w with ⟨_ | e1, w1⟩
        · rcases hstart : p.Start Context.Background w1 with ⟨_ | e2, w2⟩
          · rw [EnablePlugin_ok r name p w w1 w2 hreg hen hinit hstart]
            by_cases hk : k = name
            · simp [mapSet, hk, hreg]
            · simpa [mapSet, hk] using h k
          · rw [EnablePlugin_start_fails r name p w w1 w2 e2 hreg hen hinit hstart]
            exact h k
        · rw [EnablePlugin_init_fails r name p w w1 e1 hreg hen hinit]
          exact h k
      · rw [EnablePlugin_enabled r name p w hreg hen]
        exact h k
  | DisablePlugin name =>
    show ((DisablePlugin r name w).2.1.plugins k).isSome =
      ((DisablePlugin r name w).2.1.enabledPlugins k).isSome
    rcases hreg : r.plugins name with _ | p
    · rw [DisablePlugin_not_found r name w hreg]
      exact h k
    · rcases hen : mapBool r.enabledPlugins name with _ | _
      · rw [DisablePlugin_disabled r name p w hreg hen]
        exact h k
      · rcases hstop : p.Stop Context.Background w with ⟨_ | e1, w1⟩
        · rw [DisablePlugin_ok r name p w w1 hreg hen hstop]
          by_cases hk : k = name
          · simp [mapSet, hk, hreg]
          · simpa [mapSet, hk] using h k
        · rw [DisablePlugin_stop_fails r name p w w1 e1 hreg hen hstop]
          exact h k
  | StartAll ctx order => exact h k
  | StopAll ctx order => exact h k
  | HealthCheckAll ctx order => exact h k
  | Get name => exact h k
  | ListPlugins order => exact h k
  | IsEnabled name => exact h k

/-- After any sequence of calls from a state whose two maps have the same
keys, the two maps have the same keys. -/
theorem runOps_same_keys {Cfg W : Type} (ops : List (RegistryOp Cfg W))
    (s : DefaultPluginRegistry Cfg W × W)
    (h : ∀ k, (s.1.plugins k).isSome = (s.1.enabledPlugins k).isSome) :
    ∀ k, ((runOps ops s).1.plugins k).isSome = ((runOps ops s).1.enabledPlugins k).isSome := by
  induction ops generalizing s with
  | nil => exact h
  | cons op ops ih => exact ih (op.apply s) (apply_same_keys op s h)

/-- C24: in every registry state reached from `NewPluginRegistry` by any
sequence of `Register`, `Unregister`, `EnablePlugin`, `DisablePlugin`,
`StartAll`, `StopAll`, `HealthCheckAll`, `Get`, `List` and `IsEnabled`,
whatever the plugins return: the plugin map and the enablement map have the
same keys, so `IsEnabled(name) = true` implies that `Get(name)` succeeds; and
`Get`, `List` and `IsEnabled` leave the state unchanged. -/
theorem C24_same_key_sets {Cfg W : Type} (ops : List (RegistryOp Cfg W)) (w : W) :
    (∀ name, ((runOps ops (NewPluginRegistry, w)).1.plugins name).isSome =
      ((runOps ops (NewPluginRegistry, w)).1.enabledPlugins name).isSome) ∧
    (∀ name, IsEnabled (runOps ops (NewPluginRegistry, w)).1 name = true →
      ∃ p, Get (runOps ops (NewPluginRegistry, w)).1 name = Except.ok p) ∧
    (∀ (s : DefaultPluginRegistry Cfg W × W) (name : String) (order : List String),
      (RegistryOp.Get name).apply s = s ∧ (RegistryOp.ListPlugins order).apply s = s ∧
      (RegistryOp.IsEnabled name).apply s = s) := by
  have hkeys := runOps_same_keys ops ((NewPluginRegistry : DefaultPluginRegistry Cfg W), w)
    (fun k => rfl)
  refine ⟨hkeys, ?_, fun s name order => ⟨rfl, rfl, rfl⟩⟩
  intro name hen
  have hsome : ((runOps ops (NewPluginRegistry, w)).1.enabledPlugins name).isSome = true := by
    unfold IsEnabled mapBool at hen
    rcases hflag : (runOps ops (NewPluginRegistry, w)).1.enabledPlugins name with _ | b
    · rw [hflag] at hen
      simp at hen
    · rfl
  rw [← hkeys name] at hsome
  rcases hp : (runOps ops (NewPluginRegistry, w)).1.plugins name with _ | p
  · rw [hp] at hsome
    simp at hsome
  · exact ⟨p, by simp [Get, hp]⟩

/-- C24 on a concrete sequence: after registering and enabling "P", a failed
`DisablePlugin`, `StopAll` and a read, "P" is enabled and `Get("P")`
succeeds. -/
theorem C24_same_key_sets_witness :
    IsEnabled (runOps
      [RegistryOp.Register (tracedPlugin "P" none none none (some (GoError.errorf "busy"))),
       RegistryOp.EnablePlugin "P", RegistryOp.DisablePlugin "P",
       RegistryOp.StopAll Context.Background ["P"], RegistryOp.IsEnabled "P"]
      (NewPluginRegistry, [])).1 "P" = true ∧
    ∃ p, Get (runOps
      [RegistryOp.Register (tracedPlugin "P" none none none (some (GoError.errorf "busy"))),
       RegistryOp.EnablePlugin "P", RegistryOp.DisablePlugin "P",
       RegistryOp.StopAll Context.Background ["P"], RegistryOp.IsEnabled "P"]
      (NewPluginRegistry, [])).1 "P" = Except.ok p :=
  have hen : IsEnabled (runOps
      [RegistryOp.Register (tracedPlugin "P" none none none (some (GoError.errorf "busy"))),
       RegistryOp.EnablePlugin "P", RegistryOp.DisablePlugin "P",
       RegistryOp.StopAll Context.Background ["P"], RegistryOp.IsEnabled "P"]
      (NewPluginRegistry, [])).1 "P" = true := by
    simp [runOps, RegistryOp.apply, IsEnabled, StopAll, DisablePlugin, EnablePlugin, Register,
      NewPluginRegistry, mapSet, mapBool, tracedPlugin]
  ⟨hen, (C24_same_key_sets _ []).2.1 "P" hen⟩

/-! ## Plugin loader: unknown plugin types -/

/-- An entry whose type is none of the four recognized values makes
`createPlugin` return the "unknown plugin type" error. -/
theorem createPlugin_unknown {Cfg W : Type} (fs : PluginFactories Cfg W)
    (cfg : PluginConfigEntry Cfg)
    (h : cfg.PluginType ≠ "security" ∧ cfg.PluginType ≠ "storage" ∧
      cfg.PluginType ≠ "messaging" ∧ cfg.PluginType ≠ "observability") :
    createPlugin fs cfg =
      Except.error (GoError.errorf ("unknown plugin type: " ++ cfg.PluginType)) := by
  simp [createPlugin, h.1, h.2.1, h.2.2.1, h.2.2.2]

/-- What one round of the loop of `LoadFromConfig` does to the registry and
to the world does not depend on the entries logged so far. -/
theorem loadEntry_congr {Cfg W : Type} (fs : PluginFactories Cfg W)
    (l l' : PluginLoader Cfg W) (w : W) (cfg : PluginConfigEntry Cfg)
    (h : l.registry = l'.registry) :
    (loadEntry fs (l, w) cfg).1.registry = (loadEntry fs (l', w) cfg).1.registry ∧
    (loadEntry fs (l, w) cfg).2 = (loadEntry fs (l', w) cfg).2 := by
  unfold loadEntry
  simp only [h]
  rcases createPlugin fs cfg with err | plugin
  · exact ⟨rfl, rfl⟩
  · simp only
    rcases Register l'.registry plugin w with ⟨_ | err, r1, w1⟩
    · simp only
      rcases cfg.Enabled with _ | _
      · exact ⟨rfl, rfl⟩
      · simp only [if_true]
        rcases EnablePlugin r1 cfg.Name w1 with ⟨_ | err, r2, w2⟩ <;> exact ⟨rfl, rfl⟩
    · exact ⟨rfl, rfl⟩

/-- The loop of `LoadFromConfig` from two loaders holding the same registry
ends with the same registry and the same world. -/
theorem foldl_loadEntry_congr {Cfg W : Type} (fs : PluginFactories Cfg W)
    (entries : List (PluginConfigEntry Cfg)) (s s' : PluginLoader Cfg W × W)
    (h : s.1.registry = s'.1.registry) (hw : s.2 = s'.2) :
    (entries.foldl (loadEntry fs) s).1.registry = (entries.foldl (loadEntry fs) s').1.registry ∧
    (entries.foldl (loadEntry fs) s).2 = (entries.foldl (loadEntry fs) s').2 := by
  induction entries generalizing s s' with
  | nil => exact ⟨h, hw⟩
  | cons cfg rest ih =>
    obtain ⟨l, w⟩ := s
    obtain ⟨l', w'⟩ := s'
    simp only at h hw
    subst hw
    have hstep := loadEntry_congr fs l l' w cfg h
    exact ih _ _ hstep.1 hstep.2

/-- C22, as stated, fails: `createPlugin` rejects the entry of type "cache"
with the "unknown plugin type" error, but `LoadFromConfig` on the
configuration that holds this entry returns nil to its caller. -/
theorem C22_load_returns_nil_counterexample :
    (match createPlugin sampleFactories ⟨"c", "cache", "1.0.0", true, ()⟩ with
      | Except.error err => err = GoError.errorf "unknown plugin type: cache"
      | Except.ok _ => False) ∧
    (LoadFromConfig sampleFactories ⟨NewPluginRegistry, []⟩
      ⟨[⟨"c", "cache", "1.0.0", true, ()⟩]⟩ []).1 = none := by
  constructor
  · simp [createPlugin]
  · rfl

/-- C22, amended: an entry whose type is none of security, storage,
messaging, observability makes `createPlugin` return the "unknown plugin
type" error, and an entry of one of the four types produces the plugin of the
matching constructor without error.  `LoadFromConfig` always returns nil: for
an entry of unknown type it logs "Failed to create plugin" with that error,
leaves registry and world as they are and goes on with the next entries, so
registry and world end as for the configuration without that entry. -/
theorem C22_unknown_type_logged_and_skipped {Cfg W : Type} (fs : PluginFactories Cfg W)
    (l : PluginLoader Cfg W) (before after : List (PluginConfigEntry Cfg))
    (cfg : PluginConfigEntry Cfg) (w : W) :
    ((cfg.PluginType ≠ "security" ∧ cfg.PluginType ≠ "storage" ∧
        cfg.PluginType ≠ "messaging" ∧ cfg.PluginType ≠ "observability") →
      createPlugin fs cfg =
        Except.error (GoError.errorf ("unknown plugin type: " ++ cfg.PluginType)) ∧
      loadEntry fs (l, w) cfg =
        ({ l with
           logger := l.logger ++ [⟨"error", "Failed to create plugin",
             [Field.String "name" cfg.Name,
              Field.Error (GoError.errorf ("unknown plugin type: " ++ cfg.PluginType))]⟩] },
         w) ∧
      (LoadFromConfig fs l ⟨before ++ cfg :: after⟩ w).2.1.registry =
        (LoadFromConfig fs l ⟨before ++ after⟩ w).2.1.registry ∧
      (LoadFromConfig fs l ⟨before ++ cfg :: after⟩ w).2.2 =
        (LoadFromConfig fs l ⟨before ++ after⟩ w).2.2) ∧
    (cfg.PluginType = "security" →
      createPlugin fs cfg = Except.ok (fs.NewSecurityPlugin cfg.Name cfg.Version cfg.Config)) ∧
    (cfg.PluginType = "storage" →
      createPlugin fs cfg = Except.ok (fs.NewStoragePlugin cfg.Name cfg.Version cfg.Config)) ∧
    (cfg.PluginType = "messaging" →
      createPlugin fs cfg = Except.ok (fs.NewMessagingPlugin cfg.Name cfg.Version cfg.Config)) ∧
    (cfg.PluginType = "observability" →
      createPlugin fs cfg =
        Except.ok (fs.NewObservabilityPlugin cfg.Name cfg.Version cfg.Config)) ∧
    (LoadFromConfig fs l ⟨before ++ cfg :: after⟩ w).1 = none := by
  refine ⟨?_, ?_, ?_, ?_, ?_, rfl⟩
  · intro h
    have hcreate := createPlugin_unknown fs cfg h
    have hentry : ∀ (l1 : PluginLoader Cfg W) (w1 : W), loadEntry fs (l1, w1) cfg =
        ({ l1 with
           logger := l1.logger ++ [⟨"error", "Failed to create plugin",
             [Field.String "name" cfg.Name,
              Field.Error (GoError.errorf ("unknown plugin type: " ++ cfg.PluginType))]⟩] },
         w1) := by
      intro l1 w1
      simp [loadEntry, hcreate]
    refine ⟨hcreate, hentry l w, ?_⟩
    simp only [LoadFromConfig, List.foldl_append, List.foldl_cons]
    rw [hentry]
    have hbefore := foldl_loadEntry_congr fs before
      ({ l with logger := l.logger ++ [⟨"info", "Loading plugins from configuration",
          [Field.Count "count" (before ++ cfg :: after).length]⟩] }, w)
      ({ l with logger := l.logger ++ [⟨"info", "Loading plugins from configuration",
          [Field.Count "count" (before ++ after).length]⟩] }, w) rfl rfl
    exact foldl_loadEntry_congr fs after _ _ hbefore.1 hbefore.2
  · intro h
    simp [createPlugin, h]
  · intro h
    simp [createPlugin, h]
  · intro h
    simp [createPlugin, h]
  · intro h
    simp [createPlugin, h]

/-- C22 amended, on the configuration "a" (security), "c" (cache), "b"
(storage, enabled): `LoadFromConfig` returns nil, "a" and "b" are registered,
"b" is enabled, and "c" is not registered. -/
theorem C22_unknown_type_logged_and_skipped_witness :
    (LoadFromConfig sampleFactories ⟨NewPluginRegistry, []⟩
      ⟨[⟨"a", "security", "1.0.0", false, ()⟩] ++ ⟨"c", "cache", "1.0.0", true, ()⟩ ::
        [⟨"b", "storage", "1.0.0", true, ()⟩]⟩ []).1 = none ∧
    (LoadFromConfig sampleFactories ⟨NewPluginRegistry, []⟩
      ⟨[⟨"a", "security", "1.0.0", false, ()⟩] ++ ⟨"c", "cache", "1.0.0", true, ()⟩ ::
        [⟨"b", "storage", "1.0.0", true, ()⟩]⟩ []).2.1.registry =
      (LoadFromConfig sampleFactories ⟨NewPluginRegistry, []⟩
        ⟨[⟨"a", "security", "1.0.0", false, ()⟩] ++
          [⟨"b", "storage", "1.0.0", true, ()⟩]⟩ []).2.1.registry ∧
    IsEnabled (LoadFromConfig sampleFactories ⟨NewPluginRegistry, []⟩
        ⟨[⟨"a", "security", "1.0.0", false, ()⟩] ++
          [⟨"b", "storage", "1.0.0", true, ()⟩]⟩ []).2.1.registry "b" = true :=
  have h := C22_unknown_type_logged_and_skipped sampleFactories ⟨NewPluginRegistry, []⟩
    [⟨"a", "security", "1.0.0", false, ()⟩] [⟨"b", "storage", "1.0.0", true, ()⟩]
    ⟨"c", "cache", "1.0.0", true, ()⟩ []
  ⟨h.2.2.2.2.2,
   (h.1 ⟨by decide, by decide, by decide, by decide⟩).2.2.1,
   by simp [LoadFromConfig, loadEntry, createPlugin, sampleFactories, IsEnabled, EnablePlugin,
     Register, NewPluginRegistry, mapSet, mapBool, tracedPlugin]⟩

end Golek
